import Mathlib

/-!
# OpenWeatherAPI: point sampler and daily aggregator

A shallow embedding of `api.go` and `errors.go`.

* float64 temperatures and coordinates are rationals, the arithmetic taken as exact;
  the one quotient `sum / float64(o.measurement)` keeps a zero divisor visible (`F64`);
* the pooled HTTP client and `json.Unmarshal` are oracles (`World`);
* a `select` statement is resolved by the set of ready cases and the choice of the runtime;
* `GetDailyTemp` is a step relation over the goroutines it starts (spawner, one worker per
  sample, collector), every interleaving of their channel operations being a run.
-/

namespace Weather

/-! ## Data model -/

/-- Value of `time.Time`, as nanoseconds since the Unix epoch. -/
structure Time where
  ns : Int
  deriving DecidableEq, Repr

/-- Constant `time.Minute`, a `time.Duration` in nanoseconds. -/
def Minute : Int := 60 * 1000000000

/-- Method `Time.Add`. -/
def Time.Add (t : Time) (d : Int) : Time := ⟨t.ns + d⟩

/-- Method `Time.Unix`, whole seconds since the epoch. -/
def Time.Unix (t : Time) : Int := t.ns / 1000000000

/-- Modelled from the spec: the declaration of `Coordinates` is not among the sources; the
code reads `location.Lat` and `location.Lon` and formats both with `%f`, the spec gives
latitude and longitude as signed floating-point degrees. -/
structure Coordinates where
  Lat : ℚ
  Lon : ℚ
  deriving DecidableEq, Repr

/-- Modelled from the spec: one record of the `data` list of a response; the code reads
only `Temp`. -/
structure Datum where
  Temp : ℚ
  deriving DecidableEq, Repr

/-- Modelled from the spec: the declaration of `ResponseAPI` is not among the sources; the
response has shape `data: [ (temp: float, ...), ... ]` and the code reads `r.Data`. -/
structure ResponseAPI where
  Data : List Datum
  deriving DecidableEq, Repr

/-- Modelled from the spec: the declaration of `Config` is not among the sources; the code
reads `cfg.Token` and `cfg.CountMeasurement`, a string and an int. -/
structure Config where
  Token : String
  CountMeasurement : Int
  deriving DecidableEq, Repr

/-- Error values without an `Unwrap` method: the four package variables of `errors.go`
(compared by identity), the value of `errors.New(string(res.Body()))` and the value of
`fmt.Errorf("send request error: %s", err)`. -/
inductive PlainError where
  | LimitErr
  | ParseErr
  | ExcludeTempErr
  | CancelErr
  | New (text : String)
  | SendRequest (cause : String)
  deriving DecidableEq, Repr

/-- Method `Error` of the plain error values. -/
def PlainError.Error : PlainError → String
  | .LimitErr => "request limit expired"
  | .ParseErr => "parse response error"
  | .ExcludeTempErr => "response has not temperature"
  | .CancelErr => "cancel request"
  | .New text => text
  | .SendRequest cause => "send request error: " ++ cause

/-- Type `ApiErr` of `errors.go`; `Err` is nil (`none`) until it is assigned. -/
structure ApiErr where
  Status : Int
  Date : Time
  Location : Coordinates
  Err : Option PlainError
  deriving DecidableEq, Repr

/-- Method `ApiErr.Error`: `fmt.Sprintf("[%d] - %s \n\r", a.Status, a.Err)`. -/
def ApiErr.Error (a : ApiErr) : String :=
  "[" ++ toString a.Status ++ "] - " ++
    (match a.Err with
      | some e => e.Error
      | none => "%!s(<nil>)") ++ " \n\r"

/-- Method `ApiErr.Unwrap`. -/
def ApiErr.Unwrap (a : ApiErr) : Option PlainError := a.Err

/-- A non-nil value of the interface `error` as this package produces it. -/
inductive GoError where
  | plain (e : PlainError)
  | api (a : ApiErr)
  deriving DecidableEq, Repr

def LimitErr : GoError := .plain .LimitErr
def ParseErr : GoError := .plain .ParseErr
def ExcludeTempErr : GoError := .plain .ExcludeTempErr
def CancelErr : GoError := .plain .CancelErr

def host : String := "api.openweathermap.org"
def max_connections : Nat := 10

/-- The fields of `fasthttp.PipelineClient` that `New` sets. -/
structure PipelineClient where
  Addr : String
  Name : String
  MaxConns : Nat
  deriving DecidableEq, Repr

structure OpenWeatherAPI where
  http : PipelineClient
  token : String
  measurement : Int
  deriving DecidableEq, Repr

/-- The request `GetTempByTime` builds: method GET on the time machine URL, whose query
carries `lat`, `lon`, `dt` (Unix seconds), `appid` and `units=metric`. -/
structure Request where
  method : String
  lat : ℚ
  lon : ℚ
  dt : Int
  appid : String
  units : String
  deriving DecidableEq, Repr

/-- What `DoTimeout` leaves in the response when it returns no error. -/
structure Response where
  StatusCode : Int
  Body : String
  deriving DecidableEq, Repr

/-- The collaborators outside the package: `DoTimeout` answers a request with an error
text or a response (within its five seconds), `Unmarshal` decodes a body or fails. -/
structure World where
  DoTimeout : Request → Except String Response
  Unmarshal : String → Option ResponseAPI

/-! ## GetTempByTime -/

/-- What the request goroutine of `GetTempByTime` does last: a send on `resultCh`, a send
on `errCh`, or a run-time panic. -/
inductive Outcome where
  | result (temp : ℚ)
  | err (e : GoError)
  | panicked (msg : String)
  deriving DecidableEq, Repr

def GetTempByTime.newRequest (o : OpenWeatherAPI) (date : Time) (location : Coordinates) :
    Request :=
  { method := "GET", lat := location.Lat, lon := location.Lon, dt := date.Unix,
    appid := o.token, units := "metric" }

/-- The body of the goroutine started by `GetTempByTime` (lines 31 to 82). -/
def GetTempByTime.goroutine (o : OpenWeatherAPI) (w : World) (date : Time)
    (location : Coordinates) : Outcome :=
  match w.DoTimeout (GetTempByTime.newRequest o date location) with
  | .error err => .err (.plain (.SendRequest err))
  | .ok res =>
    if res.StatusCode ≠ 200 then
      let err : ApiErr :=
        { Status := res.StatusCode, Date := date, Location := location, Err := none }
      let err : ApiErr :=
        if res.StatusCode = 429 then { err with Err := some .LimitErr }
        else { err with Err := some (.New res.Body) }
      .err (.api err)
    else
      match w.Unmarshal res.Body with
      | none => .err ParseErr
      | some r =>
        if r.Data.length = 0 then .err ExcludeTempErr
        else
          match r.Data.get? 0 with
          | some d => .result d.Temp
          | none => .panicked "index out of range [0] with length 0"

/-- The ready cases of the `select` of `GetTempByTime` at the moment it is resolved, with
the choice of the runtime where two are ready. The goroutine always comes to offer its
outcome, so at least one case becomes ready. -/
inductive Select where
  /-- Only the send of the goroutine is ready: the context is not cancelled. -/
  | outcomeOnly
  /-- Only `ctx.Done()` is ready: cancelled while the request is in flight. -/
  | doneOnly
  /-- Both are ready; the runtime picks `ctx.Done()` exactly when `pickDone`. -/
  | both (pickDone : Bool)
  deriving DecidableEq, Repr

/-- The context is not cancelled when the `select` is resolved. -/
def Select.live (c : Select) : Bool :=
  match c with
  | .outcomeOnly => true
  | _ => false

/-- What a call returns: a value and an error (`none` is nil), or a panic. -/
abbrev Returned := Except String (ℚ × Option GoError)

def GetTempByTime.deliver : Outcome → Returned
  | .result temp => .ok (temp, none)
  | .err e => .ok (0, some e)
  | .panicked msg => .error msg

def GetTempByTime (o : OpenWeatherAPI) (w : World) (ctx : Select) (date : Time)
    (location : Coordinates) : Returned :=
  match ctx with
  | .outcomeOnly => GetTempByTime.deliver (GetTempByTime.goroutine o w date location)
  | .doneOnly => .ok (0, some CancelErr)
  | .both true => .ok (0, some CancelErr)
  | .both false => GetTempByTime.deliver (GetTempByTime.goroutine o w date location)

/-! ## Sample offsets and construction -/

/-- Line 106: `c := int(math.Ceil(180 + 24*60*float64(i)/float64(o.measurement)))`. -/
def offsetMinutes (o : OpenWeatherAPI) (i : Nat) : Int :=
  Int.ceil ((180 : ℚ) + 24 * 60 * (i : ℚ) / (o.measurement : ℚ))

/-- Line 107: `dateOffset := date.Add(time.Duration(c) * time.Minute)`. -/
def dateOffset (o : OpenWeatherAPI) (date : Time) (i : Nat) : Time :=
  date.Add (offsetMinutes o i * Minute)

def New (cfg : Config) : OpenWeatherAPI :=
  { http := { Addr := host, Name := "API", MaxConns := max_connections },
    token := cfg.Token,
    measurement := cfg.CountMeasurement }


/-! ## GetDailyTemp -/

/-- One call of `GetDailyTemp`: the receiver, what the remote service and the decoder
answer to sample `i`, how the `select` of sample `i` is resolved (the shared context and
the runtime), and the arguments. -/
structure Call where
  o : OpenWeatherAPI
  world : Nat → World
  ctx : Nat → Select
  date : Time
  location : Coordinates

/-- Line 109 in worker `i`: `o.GetTempByTime(ctx, dateOffset, location)`. -/
def Call.sample (c : Call) (i : Nat) : Returned :=
  GetTempByTime c.o (c.world i) (c.ctx i) (dateOffset c.o c.date i) c.location

/-- Capacity of `resultCh`, `make(chan float64, o.measurement)`. -/
def Call.capacity (c : Call) : Nat := c.o.measurement.toNat

/-- A float64 quotient, exact where the divisor is not zero; division by zero gives an
infinity or NaN, kept apart from every number. -/
inductive F64 where
  | num (q : ℚ)
  | notFinite
  deriving DecidableEq, Repr

def F64.div (a b : ℚ) : F64 := if b = 0 then .notFinite else .num (a / b)

/-- Where worker `i` (the goroutine of lines 104 to 116) stands. -/
inductive Worker where
  /-- Inside `GetTempByTime`. -/
  | running
  /-- Blocked in `errCh <- err`, the channel being unbuffered. -/
  | sendingErr (e : GoError)
  /-- A send is done; the deferred `wg.Done()` is pending. -/
  | returning
  | exited
  deriving DecidableEq, Repr

def Worker.alive : Worker → Bool
  | .exited => false
  | _ => true

/-- Where the goroutine of lines 101 to 122 stands; `resultCh` is closed from `sleeping`
on and `errCh` from `exited` on. -/
inductive Spawner where
  /-- In the loop, or in `wg.Wait()` after it; the loop variable is the number of
  workers started. -/
  | looping
  /-- Back from `wg.Wait()`, about to `close(resultCh)`. -/
  | closing
  /-- In `<-time.After(1 * time.Second)`. -/
  | sleeping
  /-- After `close(errCh)`. -/
  | exited
  deriving DecidableEq, Repr

structure State where
  spawner : Spawner
  wg : Nat
  workers : List Worker
  resultCh : List ℚ
  sum : ℚ
  ret : Option (F64 × Option GoError)
  panicked : Option String
  deriving DecidableEq, Repr

def State.resultClosed (s : State) : Bool :=
  match s.spawner with
  | .sleeping => true
  | .exited => true
  | _ => false

def State.errClosed (s : State) : Bool :=
  match s.spawner with
  | .exited => true
  | _ => false

/-- The state at line 99: channels made, nothing started. A negative capacity makes
`make` panic. -/
def GetDailyTemp.init (c : Call) : State :=
  { spawner := .looping, wg := 0, workers := [], resultCh := [], sum := 0, ret := none,
    panicked := if c.o.measurement < 0 then some "makechan: size out of range" else none }

/-- The atomic steps of the goroutines of one call. -/
inductive Action where
  /-- Spawner, loop test true: `wg.Add(1)` and `go func(i)`. -/
  | spawn
  /-- Spawner, loop test false: `wg.Wait()` returns. -/
  | waitReturn
  /-- Spawner: `close(resultCh)`. -/
  | closeResult
  /-- Spawner: the timer fires and `close(errCh)`. -/
  | closeErr
  /-- Worker `i`: `GetTempByTime` returns; a temperature is sent on `resultCh` if the
  buffer has room, an error starts the blocking send on `errCh`. -/
  | finish (i : Nat)
  /-- Worker `i`: the deferred `wg.Done()`. -/
  | done (i : Nat)
  /-- Collector, case `t, ok := <-resultCh` with a buffered value. -/
  | recvResult
  /-- Collector, case `err := <-errCh` meeting the send of worker `i`. -/
  | recvErr (i : Nat)
  /-- Collector, case `t, ok := <-resultCh` on the closed and drained channel. -/
  | recvResultClosed
  /-- Collector, case `err := <-errCh` on the closed channel: `err` is nil. -/
  | recvErrClosed
  deriving DecidableEq, Repr

/-- One step of `GetDailyTemp`; `none` when the action is not enabled. A panic ends the
program, and the collector takes no step after its `return`. -/
def GetDailyTemp.step (c : Call) (a : Action) (s : State) : Option State :=
  if s.panicked.isSome then none
  else
    match a with
    | .spawn =>
      match s.spawner with
      | .looping =>
        if (s.workers.length : Int) < c.o.measurement then
          some { s with wg := s.wg + 1, workers := s.workers ++ [Worker.running] }
        else none
      | _ => none
    | .waitReturn =>
      match s.spawner with
      | .looping =>
        if ¬ ((s.workers.length : Int) < c.o.measurement) ∧ s.wg = 0 then
          some { s with spawner := .closing }
        else none
      | _ => none
    | .closeResult =>
      match s.spawner with
      | .closing => some { s with spawner := .sleeping }
      | _ => none
    | .closeErr =>
      match s.spawner with
      | .sleeping => some { s with spawner := .exited }
      | _ => none
    | .finish i =>
      match s.workers[i]? with
      | some .running =>
        match c.sample i with
        | .ok (t, none) =>
          if s.resultCh.length < c.capacity then
            some { s with workers := s.workers.set i .returning,
                          resultCh := s.resultCh ++ [t] }
          else none
        | .ok (_, some e) => some { s with workers := s.workers.set i (.sendingErr e) }
        | .error msg => some { s with panicked := some msg }
      | _ => none
    | .done i =>
      match s.workers[i]? with
      | some .returning =>
        if s.wg = 0 then some { s with panicked := some "sync: negative WaitGroup counter" }
        else some { s with workers := s.workers.set i .exited, wg := s.wg - 1 }
      | _ => none
    | .recvResult =>
      if s.ret.isSome then none
      else
        match s.resultCh with
        | t :: rest => some { s with resultCh := rest, sum := s.sum + t }
        | [] => none
    | .recvErr i =>
      if s.ret.isSome then none
      else
        match s.workers[i]? with
        | some (.sendingErr e) =>
          some { s with workers := s.workers.set i .returning,
                        ret := some (F64.num 0, some e) }
        | _ => none
    | .recvResultClosed =>
      if s.ret.isSome then none
      else if s.resultClosed ∧ s.resultCh = [] then
        some { s with ret := some (F64.div s.sum (c.o.measurement : ℚ), none) }
      else none
    | .recvErrClosed =>
      if s.ret.isSome then none
      else if s.errClosed then some { s with ret := some (F64.num 0, none) }
      else none

/-- The state after a schedule, `none` when one of its actions is not enabled. -/
def GetDailyTemp.run (c : Call) : List Action → State → Option State
  | [], s => some s
  | a :: rest, s => (GetDailyTemp.step c a s).bind (GetDailyTemp.run c rest)

/-- The states some interleaving of the goroutines reaches. -/
def Reachable (c : Call) (s : State) : Prop :=
  ∃ sched, GetDailyTemp.run c sched (GetDailyTemp.init c) = some s

def Worker.rank : Worker → Nat
  | .running => 3
  | .sendingErr _ => 2
  | .returning => 1
  | .exited => 0

def Spawner.rank : Spawner → Nat
  | .looping => 3
  | .closing => 2
  | .sleeping => 1
  | .exited => 0

/-- A bound on the number of steps left. -/
def GetDailyTemp.fuel (c : Call) (s : State) : Nat :=
  4 * (c.capacity - s.workers.length) + s.spawner.rank + (s.workers.map Worker.rank).sum
    + s.resultCh.length + (if s.ret.isSome then 0 else 1)
    + (if s.panicked.isSome then 0 else 1)

/-- In every interleaving `GetDailyTemp` returns `r`: before the collector has returned
some step is enabled (no deadlock, no panic), every step uses up fuel (no run goes on
for ever), and a value the collector returns is `r`. -/
def GetDailyTemp.Returns (c : Call) (r : F64 × Option GoError) : Prop :=
  ∀ s, Reachable c s →
    (s.ret = none → ∃ a t, GetDailyTemp.step c a s = some t) ∧
    (∀ a t, GetDailyTemp.step c a s = some t →
      GetDailyTemp.fuel c t < GetDailyTemp.fuel c s) ∧
    (∀ q, s.ret = some q → q = r)

/-! ## Invariants of a call -/

/-- What holds in every state a call reaches: no panic, at most `capacity` workers, the
WaitGroup counter counts the workers not yet exited, once `wg.Wait()` has returned every
worker was started and has exited, a worker blocked on `errCh` holds the error of its
sample, and a worker whose sample failed gets past its send only by the receive of the
collector. -/
structure Inv (c : Call) (s : State) : Prop where
  noPanic : s.panicked = none
  len_le : s.workers.length ≤ c.capacity
  wg_eq : s.wg = s.workers.countP Worker.alive
  past : s.spawner ≠ .looping →
    s.workers.length = c.capacity ∧ ∀ w ∈ s.workers, w = Worker.exited
  offered : ∀ i e, s.workers[i]? = some (.sendingErr e) → ∃ x, c.sample i = .ok (x, some e)
  gone : ∀ i x e, c.sample i = .ok (x, some e) →
    (s.workers[i]? = some .returning ∨ s.workers[i]? = some .exited) → s.ret.isSome = true

/-- The temperature sample `i` sends on `resultCh`, 0 when it sends none. -/
def Call.temp (c : Call) (i : Nat) : ℚ :=
  match c.sample i with
  | .ok (t, none) => t
  | _ => 0

/-- The worker is past its channel send. -/
def Worker.sent : Worker → Bool
  | .returning => true
  | .exited => true
  | _ => false

/-- The sum of the temperatures that the workers of a list, numbered from `k`, have sent
on `resultCh`. -/
def delivered (c : Call) : List Worker → Nat → ℚ
  | [], _ => 0
  | w :: ws, k => (if w.sent then c.temp k else 0) + delivered c ws (k + 1)

/-- The sum of the temperatures of all samples. -/
def Call.total (c : Call) : ℚ := ((List.range c.capacity).map c.temp).sum

/-- The value the collector has returned, if any, is 0 with the error of a failed sample. -/
def RetFailed (c : Call) (s : State) : Prop :=
  ∀ q, s.ret = some q →
    ∃ i y e, i < c.capacity ∧ c.sample i = .ok (y, some e) ∧ q = (F64.num 0, some e)

/-- What the collector has added up and what waits in the buffer is what was sent. -/
def SumInv (c : Call) (s : State) : Prop :=
  s.sum + s.resultCh.sum = delivered c s.workers 0

/-- The value the collector has returned, if any: 0 with the error of a failed sample,
the mean of all samples, or 0 and nil read from the closed `errCh`. -/
def RetInv (c : Call) (s : State) : Prop :=
  ∀ q, s.ret = some q →
    (∃ i y e, i < c.capacity ∧ c.sample i = .ok (y, some e) ∧ q = (F64.num 0, some e)) ∨
    q = (F64.div c.total (c.o.measurement : ℚ), none) ∨
    (s.errClosed = true ∧ q = (F64.num 0, none))

/-! ## Example inputs -/

/-- A remote service answering every request with one status and body, and a decoder
with one result. -/
def World.fixed (status : Int) (body : String) (decoded : Option ResponseAPI) : World :=
  { DoTimeout := fun _ => .ok ⟨status, body⟩, Unmarshal := fun _ => decoded }

/-- An example receiver with four samples. -/
def demoAPI : OpenWeatherAPI := New ⟨"token", 4⟩

/-- An example date, 1700000000 seconds after the epoch. -/
def demoDate : Time := ⟨1700000000 * 1000000000⟩

/-- An example location. -/
def demoLocation : Coordinates := ⟨55, 37⟩

/-- An example call: `n` samples on the example date and location. -/
def demoCall (n : Int) (world : Nat → World) (ctx : Nat → Select) : Call :=
  ⟨New ⟨"token", n⟩, world, ctx, demoDate, demoLocation⟩

/-- Every sample answers 200 with one record of 20 degrees, but sample 1 answers 500. -/
def oneFails : Call :=
  demoCall 3
    (fun i => if i = 1 then World.fixed 500 "oops" none
      else World.fixed 200 "body" (some ⟨[⟨20⟩]⟩))
    (fun _ => .outcomeOnly)

/-- One sample, which answers 200 with one record of 5 degrees. -/
def oneSucceeds : Call :=
  demoCall 1 (fun _ => World.fixed 200 "body" (some ⟨[⟨5⟩]⟩)) (fun _ => .outcomeOnly)

/-- Two samples answering 200 with 20 degrees; the context is cancelled while sample 1
is in flight. -/
def cancelled : Call :=
  demoCall 2 (fun _ => World.fixed 200 "body" (some ⟨[⟨20⟩]⟩))
    (fun i => if i = 1 then .doneOnly else .outcomeOnly)

/-! ## GetTempByTime: outcome and error mapping -/

theorem goroutine_not_panicked (o : OpenWeatherAPI) (w : World) (date : Time)
    (location : Coordinates) (msg : String) :
    GetTempByTime.goroutine o w date location ≠ .panicked msg := by
  unfold GetTempByTime.goroutine
  split
  · simp
  · split
    · simp
    · split
      · simp
      · rename_i r _
        split
        · simp
        · cases hd : r.Data with
          | nil => simp [hd] at *
          | cons d rest => simp

theorem GetTempByTime_not_panicked (o : OpenWeatherAPI) (w : World) (ctx : Select)
    (date : Time) (location : Coordinates) (msg : String) :
    GetTempByTime o w ctx date location ≠ .error msg := by
  have h := goroutine_not_panicked o w date location
  unfold GetTempByTime
  cases ctx with
  | outcomeOnly =>
    cases hg : GetTempByTime.goroutine o w date location <;>
      simp_all [GetTempByTime.deliver]
  | doneOnly => simp
  | both b =>
    cases b
    · cases hg : GetTempByTime.goroutine o w date location <;>
        simp_all [GetTempByTime.deliver]
    · simp

theorem GetTempByTime_live (o : OpenWeatherAPI) (w : World) (ctx : Select)
    (date : Time) (location : Coordinates) (h : ctx.live = true) :
    GetTempByTime o w ctx date location
      = GetTempByTime.deliver (GetTempByTime.goroutine o w date location) := by
  cases ctx <;> simp_all [Select.live, GetTempByTime]

theorem GetTempByTime_cases (o : OpenWeatherAPI) (w : World) (ctx : Select)
    (date : Time) (location : Coordinates) :
    GetTempByTime o w ctx date location
        = GetTempByTime.deliver (GetTempByTime.goroutine o w date location) ∨
      (ctx.live = false ∧ GetTempByTime o w ctx date location = .ok (0, some CancelErr)) := by
  cases ctx with
  | outcomeOnly => left; rfl
  | doneOnly => right; exact ⟨rfl, rfl⟩
  | both b =>
    cases b
    · left; rfl
    · right; exact ⟨rfl, rfl⟩

/-- C4, as amended: when the transport succeeds with status 429, whatever the body,
`GetTempByTime` returns value 0 and, the context not being cancelled, an `ApiErr` with
status 429, the requested date and location, whose `Unwrap` is `LimitErr`; with a
cancelled context it returns that error or `CancelErr`. -/
theorem C4_rate_limited_amended (o : OpenWeatherAPI) (w : World) (ctx : Select)
    (date : Time) (location : Coordinates) (res : Response)
    (hres : w.DoTimeout (GetTempByTime.newRequest o date location) = .ok res)
    (hstatus : res.StatusCode = 429) :
    (ctx.live = true →
      GetTempByTime o w ctx date location
        = .ok (0, some (.api ⟨429, date, location, some .LimitErr⟩))) ∧
    (GetTempByTime o w ctx date location
        = .ok (0, some (.api ⟨429, date, location, some .LimitErr⟩)) ∨
      (ctx.live = false ∧ GetTempByTime o w ctx date location = .ok (0, some CancelErr))) ∧
    ApiErr.Unwrap ⟨429, date, location, some .LimitErr⟩ = some .LimitErr := by
  have hg : GetTempByTime.deliver (GetTempByTime.goroutine o w date location)
      = .ok (0, some (.api ⟨429, date, location, some .LimitErr⟩)) := by
    simp [GetTempByTime.goroutine, hres, hstatus, GetTempByTime.deliver]
  refine ⟨fun h => ?_, ?_, rfl⟩
  · rw [GetTempByTime_live o w ctx date location h, hg]
  · rw [← hg]
    exact GetTempByTime_cases o w ctx date location

/-- C4 as stated fails when the context is cancelled: with status 429 ready to be
delivered and `ctx.Done()` ready too, the `select` may take `ctx.Done()` and the call
returns `CancelErr`, which is no `ApiErr`. -/
theorem C4_counterexample :
    (World.fixed 429 "slow down" none).DoTimeout
        (GetTempByTime.newRequest demoAPI demoDate demoLocation) = .ok ⟨429, "slow down"⟩ ∧
    GetTempByTime demoAPI (World.fixed 429 "slow down" none) (.both true) demoDate
        demoLocation = .ok (0, some CancelErr) ∧
    ¬ ∃ a : ApiErr, GetTempByTime demoAPI (World.fixed 429 "slow down" none) (.both true)
        demoDate demoLocation = .ok (0, some (.api a)) ∧ a.Unwrap = some .LimitErr := by
  refine ⟨rfl, rfl, ?_⟩
  rintro ⟨a, h, -⟩
  have h2 : GetTempByTime demoAPI (World.fixed 429 "slow down" none) (.both true) demoDate
        demoLocation = .ok (0, some CancelErr) := rfl
  rw [h2] at h
  simp [CancelErr] at h

/-- Witness for C4: status 429 with a body, context not cancelled. -/
theorem C4_rate_limited_amended_witness :
    GetTempByTime demoAPI (World.fixed 429 "slow down" none) .outcomeOnly demoDate
        demoLocation
      = .ok (0, some (.api ⟨429, demoDate, demoLocation, some .LimitErr⟩)) :=
  (C4_rate_limited_amended demoAPI (World.fixed 429 "slow down" none) .outcomeOnly
    demoDate demoLocation ⟨429, "slow down"⟩ rfl rfl).1 rfl

/-- C5, as amended: when the transport succeeds with a status other than 200 and 429,
`GetTempByTime` returns value 0 and, the context not being cancelled, an `ApiErr` whose
`Status` is that status, whose `Date` and `Location` are the requested ones and whose
wrapped cause has the response body as its text; with a cancelled context it returns
that error or `CancelErr`. -/
theorem C5_remote_error_amended (o : OpenWeatherAPI) (w : World) (ctx : Select)
    (date : Time) (location : Coordinates) (res : Response)
    (hres : w.DoTimeout (GetTempByTime.newRequest o date location) = .ok res)
    (h200 : res.StatusCode ≠ 200) (h429 : res.StatusCode ≠ 429) :
    (ctx.live = true →
      GetTempByTime o w ctx date location
        = .ok (0, some (.api ⟨res.StatusCode, date, location, some (.New res.Body)⟩))) ∧
    (GetTempByTime o w ctx date location
        = .ok (0, some (.api ⟨res.StatusCode, date, location, some (.New res.Body)⟩)) ∨
      (ctx.live = false ∧ GetTempByTime o w ctx date location = .ok (0, some CancelErr))) ∧
    (ApiErr.Unwrap ⟨res.StatusCode, date, location, some (.New res.Body)⟩).map
      PlainError.Error = some res.Body := by
  have hg : GetTempByTime.deliver (GetTempByTime.goroutine o w date location)
      = .ok (0, some (.api ⟨res.StatusCode, date, location, some (.New res.Body)⟩)) := by
    simp [GetTempByTime.goroutine, hres, h200, h429, GetTempByTime.deliver]
  refine ⟨fun h => ?_, ?_, rfl⟩
  · rw [GetTempByTime_live o w ctx date location h, hg]
  · rw [← hg]
    exact GetTempByTime_cases o w ctx date location

/-- C5 as stated fails when the context is cancelled: with status 500 ready to be
delivered and `ctx.Done()` ready too, the call may return `CancelErr`, which is no
`ApiErr` and carries no status. -/
theorem C5_counterexample :
    (World.fixed 500 "oops" none).DoTimeout
        (GetTempByTime.newRequest demoAPI demoDate demoLocation) = .ok ⟨500, "oops"⟩ ∧
    GetTempByTime demoAPI (World.fixed 500 "oops" none) (.both true) demoDate demoLocation
      = .ok (0, some CancelErr) ∧
    ¬ ∃ a : ApiErr, GetTempByTime demoAPI (World.fixed 500 "oops" none) (.both true)
        demoDate demoLocation = .ok (0, some (.api a)) ∧ a.Status = 500 := by
  refine ⟨rfl, rfl, ?_⟩
  rintro ⟨a, h, -⟩
  have h2 : GetTempByTime demoAPI (World.fixed 500 "oops" none) (.both true) demoDate
        demoLocation = .ok (0, some CancelErr) := rfl
  rw [h2] at h
  simp [CancelErr] at h

/-- Witness for C5: status 500 with body `oops`, context not cancelled. -/
theorem C5_remote_error_amended_witness :
    GetTempByTime demoAPI (World.fixed 500 "oops" none) .outcomeOnly demoDate demoLocation
      = .ok (0, some (.api ⟨500, demoDate, demoLocation, some (.New "oops")⟩)) :=
  (C5_remote_error_amended demoAPI (World.fixed 500 "oops" none) .outcomeOnly
    demoDate demoLocation ⟨500, "oops"⟩ rfl (by decide) (by decide)).1 rfl

/-- C6, as amended: when the transport succeeds with status 200 and the body decodes to
a response with an empty data list, `GetTempByTime` never panics on an index and never
returns a nil error; its value is 0 and its error is `ExcludeTempErr` when the context is
not cancelled, and `ExcludeTempErr` or `CancelErr` when it is. -/
theorem C6_empty_result_amended (o : OpenWeatherAPI) (w : World) (ctx : Select)
    (date : Time) (location : Coordinates) (res : Response) (r : ResponseAPI)
    (hres : w.DoTimeout (GetTempByTime.newRequest o date location) = .ok res)
    (h200 : res.StatusCode = 200) (hdec : w.Unmarshal res.Body = some r)
    (hempty : r.Data = []) :
    GetTempByTime.goroutine o w date location = .err ExcludeTempErr ∧
    (ctx.live = true →
      GetTempByTime o w ctx date location = .ok (0, some ExcludeTempErr)) ∧
    (GetTempByTime o w ctx date location = .ok (0, some ExcludeTempErr) ∨
      (ctx.live = false ∧ GetTempByTime o w ctx date location = .ok (0, some CancelErr))) ∧
    (∀ msg, GetTempByTime o w ctx date location ≠ .error msg) ∧
    (∀ temp, GetTempByTime o w ctx date location ≠ .ok (temp, none)) := by
  have hg0 : GetTempByTime.goroutine o w date location = .err ExcludeTempErr := by
    simp [GetTempByTime.goroutine, hres, h200, hdec, hempty]
  have hg : GetTempByTime.deliver (GetTempByTime.goroutine o w date location)
      = .ok (0, some ExcludeTempErr) := by
    rw [hg0]
    rfl
  have hc := GetTempByTime_cases o w ctx date location
  rw [hg] at hc
  refine ⟨hg0, fun h => ?_, hc, ?_, ?_⟩
  · rw [GetTempByTime_live o w ctx date location h, hg]
  · exact GetTempByTime_not_panicked o w ctx date location
  · intro temp
    rcases hc with h | ⟨-, h⟩ <;> rw [h] <;> simp

/-- C6 as stated fails when the context is cancelled: with the empty result ready to be
delivered and `ctx.Done()` ready too, the call may return `CancelErr` instead of
`ExcludeTempErr`. -/
theorem C6_counterexample :
    (World.fixed 200 "body" (some ⟨[]⟩)).DoTimeout
        (GetTempByTime.newRequest demoAPI demoDate demoLocation) = .ok ⟨200, "body"⟩ ∧
    (World.fixed 200 "body" (some ⟨[]⟩)).Unmarshal "body" = some ⟨[]⟩ ∧
    GetTempByTime demoAPI (World.fixed 200 "body" (some ⟨[]⟩)) (.both true) demoDate
        demoLocation = .ok (0, some CancelErr) ∧
    GetTempByTime demoAPI (World.fixed 200 "body" (some ⟨[]⟩)) (.both true) demoDate
        demoLocation ≠ .ok (0, some ExcludeTempErr) := by
  refine ⟨rfl, rfl, rfl, ?_⟩
  have h2 : GetTempByTime demoAPI (World.fixed 200 "body" (some ⟨[]⟩)) (.both true)
      demoDate demoLocation = .ok (0, some CancelErr) := rfl
  rw [h2]
  simp [CancelErr, ExcludeTempErr]

/-- Witness for C6: status 200 and an empty data list, context not cancelled. -/
theorem C6_empty_result_amended_witness :
    GetTempByTime demoAPI (World.fixed 200 "body" (some ⟨[]⟩)) .outcomeOnly demoDate
        demoLocation = .ok (0, some ExcludeTempErr) :=
  (C6_empty_result_amended demoAPI (World.fixed 200 "body" (some ⟨[]⟩)) .outcomeOnly
    demoDate demoLocation ⟨200, "body"⟩ ⟨[]⟩ rfl rfl rfl rfl).2.1 rfl

/-- C7: when the transport succeeds with status 200, the body decodes to a non-empty data
list and the context is not cancelled, `GetTempByTime` returns the temperature of the
first record and a nil error, the same whatever records follow the first. -/
theorem C7_first_record (o : OpenWeatherAPI) (w : World) (ctx : Select)
    (date : Time) (location : Coordinates) (res : Response) (d : Datum)
    (rest : List Datum)
    (hres : w.DoTimeout (GetTempByTime.newRequest o date location) = .ok res)
    (h200 : res.StatusCode = 200) (hdec : w.Unmarshal res.Body = some ⟨d :: rest⟩)
    (hctx : ctx.live = true) :
    GetTempByTime o w ctx date location = .ok (d.Temp, none) ∧
    ∀ (v : World) (others : List Datum),
      v.DoTimeout (GetTempByTime.newRequest o date location) = .ok res →
      v.Unmarshal res.Body = some ⟨d :: others⟩ →
      GetTempByTime o v ctx date location = GetTempByTime o w ctx date location := by
  have key : ∀ (v : World) (others : List Datum),
      v.DoTimeout (GetTempByTime.newRequest o date location) = .ok res →
      v.Unmarshal res.Body = some ⟨d :: others⟩ →
      GetTempByTime o v ctx date location = .ok (d.Temp, none) := by
    intro v others hv hu
    rw [GetTempByTime_live o v ctx date location hctx]
    simp [GetTempByTime.goroutine, hv, h200, hu, GetTempByTime.deliver]
  refine ⟨key w rest hres hdec, fun v others hv hu => ?_⟩
  rw [key v others hv hu, key w rest hres hdec]

/-- Witness for C7: two records, the first with temperature 5/2. -/
theorem C7_first_record_witness :
    GetTempByTime demoAPI (World.fixed 200 "body" (some ⟨[⟨5 / 2⟩, ⟨7⟩]⟩)) .outcomeOnly
        demoDate demoLocation = .ok (5 / 2, none) :=
  (C7_first_record demoAPI (World.fixed 200 "body" (some ⟨[⟨5 / 2⟩, ⟨7⟩]⟩)) .outcomeOnly
    demoDate demoLocation ⟨200, "body"⟩ ⟨5 / 2⟩ [⟨7⟩] rfl rfl rfl rfl).1

/-! ## Sample offsets -/

/-- The ceiling of line 106 in integer arithmetic. -/
theorem offsetMinutes_closed (o : OpenWeatherAPI) (n i : Nat) (hn : 0 < n)
    (ho : o.measurement = (n : Int)) :
    offsetMinutes o i = ((180 + (1440 * i + (n - 1)) / n : Nat) : Int) := by
  unfold offsetMinutes
  rw [ho]
  have hq : (0 : ℚ) < (n : ℚ) := by exact_mod_cast hn
  have hdiv := Nat.div_add_mod (1440 * i + (n - 1)) n
  have hmod := Nat.mod_lt (1440 * i + (n - 1)) hn
  set q := (1440 * i + (n - 1)) / n with hqdef
  set r := (1440 * i + (n - 1)) % n with hrdef
  rw [Int.ceil_eq_iff]
  have e1 : ((n : Int) : ℚ) = (n : ℚ) := by norm_cast
  rw [e1]
  push_cast
  have h1 : (n : ℚ) * q + r = 1440 * i + (n - 1) := by
    have : ((n * q + r : Nat) : ℚ) = ((1440 * i + (n - 1) : Nat) : ℚ) := by rw [hdiv]
    push_cast [Nat.cast_sub hn] at this
    simpa using this
  have h2 : (r : ℚ) ≤ n - 1 := by
    have : r + 1 ≤ n := hmod
    have : ((r + 1 : Nat) : ℚ) ≤ (n : ℚ) := by exact_mod_cast this
    push_cast at this; linarith
  have h3 : (0 : ℚ) ≤ r := by positivity
  have key : 24 * 60 * (i : ℚ) / n = q + (r - (n - 1)) / n := by
    field_simp
    linarith
  rw [key]
  have hle : ((r : ℚ) - (n - 1)) / n ≤ 0 :=
    div_nonpos_of_nonpos_of_nonneg (by linarith) hq.le
  have hgt : -1 < ((r : ℚ) - (n - 1)) / n := by
    rw [lt_div_iff₀ hq]
    linarith
  constructor <;> linarith

theorem ceilDiv_zero (n : Nat) (hn : 0 < n) : (1440 * 0 + (n - 1)) / n = 0 :=
  Nat.div_eq_of_lt (by omega)

theorem ceilDiv_le (n i : Nat) (hi : i < n) : (1440 * i + (n - 1)) / n ≤ 1440 := by
  have : (1440 * i + (n - 1)) / n < 1441 := by
    rw [Nat.div_lt_iff_lt_mul (by omega)]
    omega
  omega

theorem ceilDiv_lt (n i : Nat) (hn : n ≤ 1440) (hi : i < n) :
    (1440 * i + (n - 1)) / n < 1440 := by
  rw [Nat.div_lt_iff_lt_mul (by omega)]
  omega

theorem ceilDiv_mono (n i : Nat) :
    (1440 * i + (n - 1)) / n ≤ (1440 * (i + 1) + (n - 1)) / n :=
  Nat.div_le_div_right (by omega)

theorem ceilDiv_strict (n i : Nat) (hn : n ≤ 1441) (hi : i + 1 < n) :
    (1440 * i + (n - 1)) / n < (1440 * (i + 1) + (n - 1)) / n := by
  rcases Nat.lt_or_ge n 1441 with h | h
  · have h1 : (1440 * i + (n - 1)) / n + 1 = (1440 * i + (n - 1) + n) / n := by
      rw [Nat.add_div_right _ (by omega)]
    have h2 : (1440 * i + (n - 1) + n) / n ≤ (1440 * (i + 1) + (n - 1)) / n :=
      Nat.div_le_div_right (by omega)
    omega
  · have : n = 1441 := by omega
    subst this
    omega

theorem ceilDiv_strictMono (n : Nat) (hn : n ≤ 1441) (i j : Nat) (hij : i < j) (hj : j < n) :
    (1440 * i + (n - 1)) / n < (1440 * j + (n - 1)) / n := by
  induction j with
  | zero => omega
  | succ k ih =>
    have hs := ceilDiv_strict n k hn hj
    rcases Nat.lt_or_ge i k with h | h
    · have := ih h (by omega)
      omega
    · have : i = k := by omega
      subst this
      exact hs

theorem ceilDiv_collision (n : Nat) (hn : 1441 < n) :
    ∃ i j, i < j ∧ j < n ∧ (1440 * i + (n - 1)) / n = (1440 * j + (n - 1)) / n := by
  have hcard : (Finset.range 1441).card < (Finset.range n).card := by simpa using hn
  have hmaps : ∀ i ∈ Finset.range n,
      (1440 * i + (n - 1)) / n ∈ Finset.range 1441 := by
    intro i hi
    have := ceilDiv_le n i (Finset.mem_range.mp hi)
    exact Finset.mem_range.mpr (by omega)
  obtain ⟨x, hx, y, hy, hne, heq⟩ :=
    Finset.exists_ne_map_eq_of_card_lt_of_maps_to hcard hmaps
  rw [Finset.mem_range] at hx hy
  rcases Nat.lt_or_ge x y with h | h
  · exact ⟨x, y, h, hy, heq⟩
  · exact ⟨y, x, by omega, hx, heq.symm⟩

theorem offsetMinutes_nat (o : OpenWeatherAPI) (h : 1 ≤ o.measurement) :
    ∃ n : Nat, 0 < n ∧ o.measurement = (n : Int) ∧
      ∀ i, offsetMinutes o i = ((180 + (1440 * i + (n - 1)) / n : Nat) : Int) := by
  refine ⟨o.measurement.toNat, by omega, by omega, fun i => ?_⟩
  exact offsetMinutes_closed o _ i (by omega) (by omega)

/-- C10, as amended: for a sample count `N` of at least 1 the minute offsets `c_i` start at
`c_0 = 180`, lie in `180 ≤ c_i ≤ 1620` (below 1620 whenever `N ≤ 1440`), never decrease,
increase strictly and so give pairwise different timestamps whenever `N ≤ 1441`, and for
every `N > 1441` two samples request the same timestamp. -/
theorem C10_offsets_amended (o : OpenWeatherAPI) (date : Time) (hN : 1 ≤ o.measurement) :
    offsetMinutes o 0 = 180 ∧
    (∀ i : Nat, (i : Int) < o.measurement →
      180 ≤ offsetMinutes o i ∧ offsetMinutes o i ≤ 1620) ∧
    (o.measurement ≤ 1440 → ∀ i : Nat, (i : Int) < o.measurement →
      offsetMinutes o i < 1620) ∧
    (∀ i : Nat, offsetMinutes o i ≤ offsetMinutes o (i + 1)) ∧
    (o.measurement ≤ 1441 → ∀ i : Nat, ((i + 1 : Nat) : Int) < o.measurement →
      offsetMinutes o i < offsetMinutes o (i + 1)) ∧
    (o.measurement ≤ 1441 → ∀ i j : Nat, i < j → (j : Int) < o.measurement →
      dateOffset o date i ≠ dateOffset o date j) ∧
    (1441 < o.measurement → ∃ i j : Nat, i < j ∧ (j : Int) < o.measurement ∧
      offsetMinutes o i = offsetMinutes o j ∧ dateOffset o date i = dateOffset o date j) := by
  obtain ⟨n, hn, hm, hc⟩ := offsetMinutes_nat o hN
  rw [hm]
  refine ⟨?_, ?_, ?_, ?_, ?_, ?_, ?_⟩
  · rw [hc, ceilDiv_zero n hn]
    rfl
  · intro i hi
    have := ceilDiv_le n i (by exact_mod_cast hi)
    rw [hc]
    generalize (1440 * i + (n - 1)) / n = q at this
    constructor <;> omega
  · intro h i hi
    have := ceilDiv_lt n i (by exact_mod_cast h) (by exact_mod_cast hi)
    rw [hc]
    generalize (1440 * i + (n - 1)) / n = q at this
    omega
  · intro i
    have := ceilDiv_mono n i
    rw [hc, hc]
    generalize (1440 * i + (n - 1)) / n = q at this
    generalize (1440 * (i + 1) + (n - 1)) / n = q1 at this
    omega
  · intro h i hi
    have := ceilDiv_strict n i (by exact_mod_cast h) (by exact_mod_cast hi)
    rw [hc, hc]
    generalize (1440 * i + (n - 1)) / n = q at this
    generalize (1440 * (i + 1) + (n - 1)) / n = q1 at this
    omega
  · intro h i j hij hj heq
    have := ceilDiv_strictMono n (by exact_mod_cast h) i j hij (by exact_mod_cast hj)
    unfold dateOffset Time.Add at heq
    rw [hc, hc] at heq
    simp only [Time.mk.injEq, Minute] at heq
    generalize (1440 * i + (n - 1)) / n = q at this heq
    generalize (1440 * j + (n - 1)) / n = q1 at this heq
    omega
  · intro h
    obtain ⟨i, j, hij, hj, heq⟩ := ceilDiv_collision n (by exact_mod_cast h)
    refine ⟨i, j, hij, by exact_mod_cast hj, ?_, ?_⟩
    · rw [hc, hc, heq]
    · unfold dateOffset
      rw [hc, hc, heq]

/-- C10 as stated fails for 1441 samples: the last offset is 1620, not below it, and the
1441 offsets are pairwise different although the count exceeds 1440. -/
theorem C10_counterexample :
    ¬ (∀ o : OpenWeatherAPI, 1 ≤ o.measurement →
        (∀ i : Nat, (i : Int) < o.measurement → offsetMinutes o i < 1620) ∧
        (1440 < o.measurement → ∃ i j : Nat, i < j ∧ (j : Int) < o.measurement ∧
          offsetMinutes o i = offsetMinutes o j)) ∧
    offsetMinutes (New ⟨"token", 1441⟩) 1440 = 1620 ∧
    ¬ ∃ i j : Nat, i < j ∧ (j : Int) < (New ⟨"token", 1441⟩).measurement ∧
        offsetMinutes (New ⟨"token", 1441⟩) i = offsetMinutes (New ⟨"token", 1441⟩) j := by
  have hc := fun k => offsetMinutes_closed (New ⟨"token", 1441⟩) 1441 k (by norm_num) rfl
  have h1620 : offsetMinutes (New ⟨"token", 1441⟩) 1440 = 1620 := by
    rw [hc]
    norm_num
  refine ⟨?_, h1620, ?_⟩
  · intro h
    have := (h (New ⟨"token", 1441⟩) (by decide)).1 1440 (by decide)
    rw [h1620] at this
    exact absurd this (by decide)
  · rintro ⟨i, j, hij, hj, heq⟩
    have hj1 : j < 1441 := by
      have : (j : Int) < 1441 := hj
      exact_mod_cast this
    rw [hc, hc] at heq
    have := ceilDiv_strictMono 1441 (le_refl _) i j hij hj1
    generalize (1440 * i + (1441 - 1)) / 1441 = q at this heq
    generalize (1440 * j + (1441 - 1)) / 1441 = q1 at this heq
    omega

/-- Witness for C10: five samples. -/
theorem C10_offsets_amended_witness :
    offsetMinutes (New ⟨"token", 5⟩) 0 = 180 ∧
    (∀ i : Nat, (i : Int) < (New ⟨"token", 5⟩).measurement →
      offsetMinutes (New ⟨"token", 5⟩) i < 1620) :=
  have h := C10_offsets_amended (New ⟨"token", 5⟩) ⟨0⟩ (by decide)
  ⟨h.1, h.2.2.1 (by decide)⟩

/-! ## GetDailyTemp: steps, invariants and results -/

theorem countP_set_of_get {α : Type} (p : α → Bool) (l : List α) (i : Nat) (a b : α)
    (h : l[i]? = some a) :
    (l.set i b).countP p + (if p a then 1 else 0) = l.countP p + (if p b then 1 else 0) := by
  induction l generalizing i with
  | nil => simp at h
  | cons x xs ih =>
    cases i with
    | zero =>
      simp only [List.getElem?_cons_zero, Option.some.injEq] at h
      subst h
      simp only [List.set_cons_zero, List.countP_cons]
      omega
    | succ k =>
      simp only [List.getElem?_cons_succ] at h
      have := ih k h
      simp only [List.set_cons_succ, List.countP_cons]
      omega

theorem sum_map_set_of_get {α : Type} (f : α → Nat) (l : List α) (i : Nat) (a b : α)
    (h : l[i]? = some a) :
    ((l.set i b).map f).sum + f a = (l.map f).sum + f b := by
  induction l generalizing i with
  | nil => simp at h
  | cons x xs ih =>
    cases i with
    | zero =>
      simp only [List.getElem?_cons_zero, Option.some.injEq] at h
      subst h
      simp only [List.set_cons_zero, List.map_cons, List.sum_cons]
      omega
    | succ k =>
      simp only [List.getElem?_cons_succ] at h
      have := ih k h
      simp only [List.set_cons_succ, List.map_cons, List.sum_cons]
      omega

theorem step_not_panicked (c : Call) (a : Action) (s t : State)
    (h : GetDailyTemp.step c a s = some t) : s.panicked = none := by
  unfold GetDailyTemp.step at h
  split at h
  · simp at h
  · rename_i hp
    simpa using hp

theorem step_spawn (c : Call) (s t : State) (h : GetDailyTemp.step c .spawn s = some t) :
    s.spawner = .looping ∧ (s.workers.length : Int) < c.o.measurement ∧
      t = { s with wg := s.wg + 1, workers := s.workers ++ [Worker.running] } := by
  have hp := step_not_panicked c _ s t h
  unfold GetDailyTemp.step at h
  rw [if_neg (by simp [hp])] at h
  simp only at h
  cases hs : s.spawner <;> simp_all

theorem step_waitReturn (c : Call) (s t : State)
    (h : GetDailyTemp.step c .waitReturn s = some t) :
    s.spawner = .looping ∧ ¬ (s.workers.length : Int) < c.o.measurement ∧ s.wg = 0 ∧
      t = { s with spawner := .closing } := by
  have hp := step_not_panicked c _ s t h
  unfold GetDailyTemp.step at h
  rw [if_neg (by simp [hp])] at h
  simp only at h
  cases hs : s.spawner <;> simp_all

theorem step_closeResult (c : Call) (s t : State)
    (h : GetDailyTemp.step c .closeResult s = some t) :
    s.spawner = .closing ∧ t = { s with spawner := .sleeping } := by
  have hp := step_not_panicked c _ s t h
  unfold GetDailyTemp.step at h
  rw [if_neg (by simp [hp])] at h
  simp only at h
  cases hs : s.spawner <;> simp_all

theorem step_closeErr (c : Call) (s t : State)
    (h : GetDailyTemp.step c .closeErr s = some t) :
    s.spawner = .sleeping ∧ t = { s with spawner := .exited } := by
  have hp := step_not_panicked c _ s t h
  unfold GetDailyTemp.step at h
  rw [if_neg (by simp [hp])] at h
  simp only at h
  cases hs : s.spawner <;> simp_all

theorem step_finish (c : Call) (i : Nat) (s t : State)
    (h : GetDailyTemp.step c (.finish i) s = some t) :
    s.workers[i]? = some .running ∧
      ((∃ x, c.sample i = .ok (x, none) ∧ s.resultCh.length < c.capacity ∧
          t = { s with workers := s.workers.set i .returning,
                       resultCh := s.resultCh ++ [x] }) ∨
       (∃ x e, c.sample i = .ok (x, some e) ∧
          t = { s with workers := s.workers.set i (.sendingErr e) }) ∨
       (∃ msg, c.sample i = .error msg ∧ t = { s with panicked := some msg })) := by
  have hp := step_not_panicked c _ s t h
  unfold GetDailyTemp.step at h
  rw [if_neg (by simp [hp])] at h
  simp only at h
  split at h
  · rename_i hw
    refine ⟨hw, ?_⟩
    split at h
    · rename_i x hsm
      split at h
      · left
        exact ⟨x, hsm, by assumption, by simpa using h.symm⟩
      · simp at h
    · rename_i x e hsm
      right; left
      exact ⟨x, e, hsm, by simpa using h.symm⟩
    · rename_i msg hsm
      right; right
      exact ⟨msg, hsm, by simpa using h.symm⟩
  · simp at h

theorem step_done (c : Call) (i : Nat) (s t : State)
    (h : GetDailyTemp.step c (.done i) s = some t) :
    s.workers[i]? = some .returning ∧
      ((s.wg = 0 ∧ t = { s with panicked := some "sync: negative WaitGroup counter" }) ∨
       (s.wg ≠ 0 ∧ t = { s with workers := s.workers.set i .exited, wg := s.wg - 1 })) := by
  have hp := step_not_panicked c _ s t h
  unfold GetDailyTemp.step at h
  rw [if_neg (by simp [hp])] at h
  simp only at h
  split at h
  · rename_i hw
    refine ⟨hw, ?_⟩
    split at h
    · left
      exact ⟨by assumption, by simpa using h.symm⟩
    · right
      exact ⟨by assumption, by simpa using h.symm⟩
  · simp at h

theorem step_recvResult (c : Call) (s t : State)
    (h : GetDailyTemp.step c .recvResult s = some t) :
    s.ret = none ∧ ∃ x rest, s.resultCh = x :: rest ∧
      t = { s with resultCh := rest, sum := s.sum + x } := by
  have hp := step_not_panicked c _ s t h
  unfold GetDailyTemp.step at h
  rw [if_neg (by simp [hp])] at h
  simp only at h
  split at h
  · simp at h
  · rename_i hr
    refine ⟨by simpa using hr, ?_⟩
    split at h
    · rename_i x rest hb
      exact ⟨x, rest, hb, by simpa using h.symm⟩
    · simp at h

theorem step_recvErr (c : Call) (i : Nat) (s t : State)
    (h : GetDailyTemp.step c (.recvErr i) s = some t) :
    s.ret = none ∧ ∃ e, s.workers[i]? = some (.sendingErr e) ∧
      t = { s with workers := s.workers.set i .returning,
                   ret := some (F64.num 0, some e) } := by
  have hp := step_not_panicked c _ s t h
  unfold GetDailyTemp.step at h
  rw [if_neg (by simp [hp])] at h
  simp only at h
  split at h
  · simp at h
  · rename_i hr
    refine ⟨by simpa using hr, ?_⟩
    split at h
    · rename_i e hw
      exact ⟨e, hw, by simpa using h.symm⟩
    · simp at h

theorem step_recvResultClosed (c : Call) (s t : State)
    (h : GetDailyTemp.step c .recvResultClosed s = some t) :
    s.ret = none ∧ s.resultClosed = true ∧ s.resultCh = [] ∧
      t = { s with ret := some (F64.div s.sum (c.o.measurement : ℚ), none) } := by
  have hp := step_not_panicked c _ s t h
  unfold GetDailyTemp.step at h
  rw [if_neg (by simp [hp])] at h
  simp only at h
  split at h
  · simp at h
  · rename_i hr
    refine ⟨by simpa using hr, ?_⟩
    split at h
    · rename_i hc
      exact ⟨hc.1, hc.2, by simpa using h.symm⟩
    · simp at h

theorem step_recvErrClosed (c : Call) (s t : State)
    (h : GetDailyTemp.step c .recvErrClosed s = some t) :
    s.ret = none ∧ s.errClosed = true ∧ t = { s with ret := some (F64.num 0, none) } := by
  have hp := step_not_panicked c _ s t h
  unfold GetDailyTemp.step at h
  rw [if_neg (by simp [hp])] at h
  simp only at h
  split at h
  · simp at h
  · rename_i hr
    refine ⟨by simpa using hr, ?_⟩
    split at h
    · rename_i hc
      exact ⟨hc, by simpa using h.symm⟩
    · simp at h

/-- Every step uses up fuel. -/
theorem fuel_decreases (c : Call) (a : Action) (s t : State)
    (h : GetDailyTemp.step c a s = some t) :
    GetDailyTemp.fuel c t < GetDailyTemp.fuel c s := by
  have hp := step_not_panicked c a s t h
  cases a with
  | spawn =>
    obtain ⟨hs, hlt, rfl⟩ := step_spawn c s t h
    have : s.workers.length < c.capacity := by unfold Call.capacity; omega
    simp [GetDailyTemp.fuel, hs, Worker.rank]
    omega
  | waitReturn =>
    obtain ⟨hs, -, -, rfl⟩ := step_waitReturn c s t h
    simp [GetDailyTemp.fuel, hs, Spawner.rank]
  | closeResult =>
    obtain ⟨hs, rfl⟩ := step_closeResult c s t h
    simp [GetDailyTemp.fuel, hs, Spawner.rank]
  | closeErr =>
    obtain ⟨hs, rfl⟩ := step_closeErr c s t h
    simp [GetDailyTemp.fuel, hs, Spawner.rank]
  | finish i =>
    obtain ⟨hw, h1 | h1 | h1⟩ := step_finish c i s t h
    · obtain ⟨x, -, -, rfl⟩ := h1
      have := sum_map_set_of_get Worker.rank s.workers i _ Worker.returning hw
      simp [GetDailyTemp.fuel, Worker.rank] at this ⊢
      omega
    · obtain ⟨x, e, -, rfl⟩ := h1
      have := sum_map_set_of_get Worker.rank s.workers i _ (Worker.sendingErr e) hw
      simp [GetDailyTemp.fuel, Worker.rank] at this ⊢
      omega
    · obtain ⟨msg, -, rfl⟩ := h1
      simp [GetDailyTemp.fuel, hp]
  | done i =>
    obtain ⟨hw, h1 | h1⟩ := step_done c i s t h
    · obtain ⟨-, rfl⟩ := h1
      simp [GetDailyTemp.fuel, hp]
    · obtain ⟨-, rfl⟩ := h1
      have := sum_map_set_of_get Worker.rank s.workers i _ Worker.exited hw
      simp [GetDailyTemp.fuel, Worker.rank] at this ⊢
      omega
  | recvResult =>
    obtain ⟨-, x, rest, hb, rfl⟩ := step_recvResult c s t h
    simp [GetDailyTemp.fuel, hb]
  | recvErr i =>
    obtain ⟨hr, e, hw, rfl⟩ := step_recvErr c i s t h
    have := sum_map_set_of_get Worker.rank s.workers i _ Worker.returning hw
    simp [GetDailyTemp.fuel, Worker.rank, hr] at this ⊢
    omega
  | recvResultClosed =>
    obtain ⟨hr, -, -, rfl⟩ := step_recvResultClosed c s t h
    simp [GetDailyTemp.fuel, hr]
  | recvErrClosed =>
    obtain ⟨hr, -, rfl⟩ := step_recvErrClosed c s t h
    simp [GetDailyTemp.fuel, hr]

theorem sample_not_panicked (c : Call) (i : Nat) (msg : String) :
    c.sample i ≠ .error msg :=
  GetTempByTime_not_panicked _ _ _ _ _ msg

theorem mem_of_get {α : Type} (l : List α) (i : Nat) (a : α) (h : l[i]? = some a) :
    a ∈ l := by
  rw [List.getElem?_eq_some] at h
  obtain ⟨hi, rfl⟩ := h
  exact List.getElem_mem hi

theorem get_set_eq {α : Type} (l : List α) (i : Nat) (a b : α) (h : l[i]? = some a) :
    (l.set i b)[i]? = some b := by
  rw [List.getElem?_eq_some] at h
  obtain ⟨hi, -⟩ := h
  simp [List.getElem?_set, hi]

theorem get_set_ne {α : Type} (l : List α) (i k : Nat) (b : α) (h : i ≠ k) :
    (l.set i b)[k]? = l[k]? := by
  simp [List.getElem?_set, h]

theorem lt_of_get {α : Type} (l : List α) (i : Nat) (a : α) (h : l[i]? = some a) :
    i < l.length := by
  rw [List.getElem?_eq_some] at h
  exact h.1

theorem Inv_init (c : Call) (hN : 0 ≤ c.o.measurement) : Inv c (GetDailyTemp.init c) := by
  refine ⟨?_, ?_, ?_, ?_, ?_, ?_⟩ <;> simp [GetDailyTemp.init]
  omega

theorem Inv_step (c : Call) (a : Action) (s t : State) (hs : Inv c s)
    (h : GetDailyTemp.step c a s = some t) : Inv c t := by
  obtain ⟨hp, hlen, hwg, hpast, hoff, hgone⟩ := hs
  cases a with
  | spawn =>
    obtain ⟨hsp, hlt, rfl⟩ := step_spawn c s t h
    have hcap : s.workers.length < c.capacity := by unfold Call.capacity; omega
    refine ⟨hp, ?_, ?_, ?_, ?_, ?_⟩
    · simp; omega
    · simp [hwg, Worker.alive]
    · intro hne
      exact absurd hsp hne
    · intro i e hi
      rcases Nat.lt_or_ge i s.workers.length with hlt | hge
      · rw [List.getElem?_append_left hlt] at hi
        exact hoff i e hi
      · rw [List.getElem?_append_right hge] at hi
        cases hk : i - s.workers.length <;> simp [hk] at hi
    · intro i x e hsm hi
      rcases Nat.lt_or_ge i s.workers.length with hlt | hge
      · rw [List.getElem?_append_left hlt] at hi
        exact hgone i x e hsm hi
      · rw [List.getElem?_append_right hge] at hi
        cases hk : i - s.workers.length <;> simp [hk] at hi
  | waitReturn =>
    obtain ⟨hsp, hge, hz, rfl⟩ := step_waitReturn c s t h
    refine ⟨hp, hlen, hwg, ?_, hoff, hgone⟩
    intro _
    constructor
    · show s.workers.length = c.capacity
      unfold Call.capacity at hlen ⊢
      omega
    · intro w hw
      rw [hz] at hwg
      have := (List.countP_eq_zero.mp hwg.symm) w hw
      cases w <;> simp_all [Worker.alive]
  | closeResult =>
    obtain ⟨hsp, rfl⟩ := step_closeResult c s t h
    exact ⟨hp, hlen, hwg, fun _ => hpast (by simp [hsp]), hoff, hgone⟩
  | closeErr =>
    obtain ⟨hsp, rfl⟩ := step_closeErr c s t h
    exact ⟨hp, hlen, hwg, fun _ => hpast (by simp [hsp]), hoff, hgone⟩
  | finish i =>
    obtain ⟨hw, h1 | h1 | h1⟩ := step_finish c i s t h
    · obtain ⟨x, hsm, -, rfl⟩ := h1
      refine ⟨hp, by simpa using hlen, ?_, ?_, ?_, ?_⟩
      · have := countP_set_of_get Worker.alive s.workers i _ Worker.returning hw
        simp [Worker.alive] at this
        simp [hwg, this]
      · intro hne
        have := (hpast hne).2 _ (mem_of_get _ _ _ hw)
        simp at this
      · intro k e hk
        rcases eq_or_ne i k with rfl | hik
        · rw [get_set_eq _ _ _ _ hw] at hk
          simp at hk
        · rw [get_set_ne _ _ _ _ hik] at hk
          exact hoff k e hk
      · intro k y e hsk hk
        rcases eq_or_ne i k with rfl | hik
        · rw [hsm] at hsk
          simp at hsk
        · rw [get_set_ne _ _ _ _ hik] at hk
          exact hgone k y e hsk hk
    · obtain ⟨x, e, hsm, rfl⟩ := h1
      refine ⟨hp, by simpa using hlen, ?_, ?_, ?_, ?_⟩
      · have := countP_set_of_get Worker.alive s.workers i _ (Worker.sendingErr e) hw
        simp [Worker.alive] at this
        simp [hwg, this]
      · intro hne
        have := (hpast hne).2 _ (mem_of_get _ _ _ hw)
        simp at this
      · intro k e2 hk
        rcases eq_or_ne i k with rfl | hik
        · rw [get_set_eq _ _ _ _ hw] at hk
          simp only [Option.some.injEq, Worker.sendingErr.injEq] at hk
          subst hk
          exact ⟨x, hsm⟩
        · rw [get_set_ne _ _ _ _ hik] at hk
          exact hoff k e2 hk
      · intro k y e2 hsk hk
        rcases eq_or_ne i k with rfl | hik
        · rw [get_set_eq _ _ _ _ hw] at hk
          simp at hk
        · rw [get_set_ne _ _ _ _ hik] at hk
          exact hgone k y e2 hsk hk
    · obtain ⟨msg, hsm, -⟩ := h1
      exact absurd hsm (sample_not_panicked c i msg)
  | done i =>
    obtain ⟨hw, h1 | h1⟩ := step_done c i s t h
    · obtain ⟨hz, -⟩ := h1
      rw [hz] at hwg
      have := (List.countP_eq_zero.mp hwg.symm) _ (mem_of_get _ _ _ hw)
      simp [Worker.alive] at this
    · obtain ⟨hnz, rfl⟩ := h1
      refine ⟨hp, by simpa using hlen, ?_, ?_, ?_, ?_⟩
      · have := countP_set_of_get Worker.alive s.workers i _ Worker.exited hw
        simp [Worker.alive] at this
        simp only
        omega
      · intro hne
        have := (hpast hne).2 _ (mem_of_get _ _ _ hw)
        simp at this
      · intro k e hk
        rcases eq_or_ne i k with rfl | hik
        · rw [get_set_eq _ _ _ _ hw] at hk
          simp at hk
        · rw [get_set_ne _ _ _ _ hik] at hk
          exact hoff k e hk
      · intro k y e hsk hk
        rcases eq_or_ne i k with rfl | hik
        · exact hgone i y e hsk (Or.inl hw)
        · rw [get_set_ne _ _ _ _ hik] at hk
          exact hgone k y e hsk hk
  | recvResult =>
    obtain ⟨-, x, rest, hb, rfl⟩ := step_recvResult c s t h
    exact ⟨hp, hlen, hwg, hpast, hoff, hgone⟩
  | recvErr i =>
    obtain ⟨hr, e, hw, rfl⟩ := step_recvErr c i s t h
    refine ⟨hp, by simpa using hlen, ?_, ?_, ?_, ?_⟩
    · have := countP_set_of_get Worker.alive s.workers i _ Worker.returning hw
      simp [Worker.alive] at this
      simp [hwg, this]
    · intro hne
      have := (hpast hne).2 _ (mem_of_get _ _ _ hw)
      simp at this
    · intro k e2 hk
      rcases eq_or_ne i k with rfl | hik
      · rw [get_set_eq _ _ _ _ hw] at hk
        simp at hk
      · rw [get_set_ne _ _ _ _ hik] at hk
        exact hoff k e2 hk
    · intro k y e2 hsk hk
      simp
  | recvResultClosed =>
    obtain ⟨hr, -, -, rfl⟩ := step_recvResultClosed c s t h
    exact ⟨hp, hlen, hwg, hpast, hoff, fun _ _ _ _ _ => by simp⟩
  | recvErrClosed =>
    obtain ⟨hr, -, rfl⟩ := step_recvErrClosed c s t h
    exact ⟨hp, hlen, hwg, hpast, hoff, fun _ _ _ _ _ => by simp⟩

theorem run_preserves (c : Call) (P : State → Prop)
    (hstep : ∀ a s t, P s → GetDailyTemp.step c a s = some t → P t) :
    ∀ (sched : List Action) (s t : State), P s → GetDailyTemp.run c sched s = some t → P t := by
  intro sched
  induction sched with
  | nil =>
    intro s t hs h
    simp only [GetDailyTemp.run, Option.some.injEq] at h
    exact h ▸ hs
  | cons a rest ih =>
    intro s t hs h
    simp only [GetDailyTemp.run] at h
    cases hst : GetDailyTemp.step c a s with
    | none => simp [hst] at h
    | some u =>
      rw [hst] at h
      exact ih u t (hstep a s u hs hst) h

theorem Inv_reachable (c : Call) (hN : 0 ≤ c.o.measurement) (s : State)
    (h : Reachable c s) : Inv c s := by
  obtain ⟨sched, hrun⟩ := h
  exact run_preserves c (Inv c) (fun a s t => Inv_step c a s t) sched _ s (Inv_init c hN) hrun

/-- With a failing sample, the spawner gets past `wg.Wait()` only after the collector
has returned. -/
theorem past_returned (c : Call) (s : State) (hs : Inv c s) (j : Nat) (x : ℚ) (e : GoError)
    (hj : j < c.capacity) (hsj : c.sample j = .ok (x, some e))
    (hne : s.spawner ≠ .looping) : s.ret.isSome = true := by
  obtain ⟨hlenEq, hall⟩ := hs.past hne
  have hjl : j < s.workers.length := by omega
  have hget : s.workers[j]? = some (s.workers[j]) := List.getElem?_eq_getElem hjl
  have hex := hall _ (mem_of_get _ _ _ hget)
  rw [hex] at hget
  exact hs.gone j x e hsj (Or.inr hget)

theorem RetFailed_step (c : Call) (j : Nat) (x : ℚ) (e : GoError)
    (hj : j < c.capacity) (hsj : c.sample j = .ok (x, some e))
    (a : Action) (s t : State) (hs : Inv c s ∧ RetFailed c s)
    (h : GetDailyTemp.step c a s = some t) : Inv c t ∧ RetFailed c t := by
  refine ⟨Inv_step c a s t hs.1 h, ?_⟩
  obtain ⟨hinv, hret⟩ := hs
  cases a with
  | spawn =>
    obtain ⟨-, -, rfl⟩ := step_spawn c s t h
    exact hret
  | waitReturn =>
    obtain ⟨-, -, -, rfl⟩ := step_waitReturn c s t h
    exact hret
  | closeResult =>
    obtain ⟨-, rfl⟩ := step_closeResult c s t h
    exact hret
  | closeErr =>
    obtain ⟨-, rfl⟩ := step_closeErr c s t h
    exact hret
  | finish i =>
    obtain ⟨-, h1 | h1 | h1⟩ := step_finish c i s t h
    · obtain ⟨y, -, -, rfl⟩ := h1
      exact hret
    · obtain ⟨y, e2, -, rfl⟩ := h1
      exact hret
    · obtain ⟨msg, hsm, -⟩ := h1
      exact absurd hsm (sample_not_panicked c i msg)
  | done i =>
    obtain ⟨-, h1 | h1⟩ := step_done c i s t h
    · obtain ⟨-, rfl⟩ := h1
      exact hret
    · obtain ⟨-, rfl⟩ := h1
      exact hret
  | recvResult =>
    obtain ⟨-, y, rest, -, rfl⟩ := step_recvResult c s t h
    exact hret
  | recvErr i =>
    obtain ⟨-, e2, hw, rfl⟩ := step_recvErr c i s t h
    intro q hq
    simp only [Option.some.injEq] at hq
    obtain ⟨y, hy⟩ := hinv.offered i e2 hw
    have := lt_of_get _ _ _ hw
    exact ⟨i, y, e2, by have := hinv.len_le; omega, hy, hq.symm⟩
  | recvResultClosed =>
    obtain ⟨hr, hcl, -, rfl⟩ := step_recvResultClosed c s t h
    have hne : s.spawner ≠ .looping := by
      intro hsp
      simp [State.resultClosed, hsp] at hcl
    have := past_returned c s hinv j x e hj hsj hne
    simp [hr] at this
  | recvErrClosed =>
    obtain ⟨hr, hcl, rfl⟩ := step_recvErrClosed c s t h
    have hne : s.spawner ≠ .looping := by
      intro hsp
      simp [State.errClosed, hsp] at hcl
    have := past_returned c s hinv j x e hj hsj hne
    simp [hr] at this

/-- With a failing sample the collector is never stuck before its return. -/
theorem progress_of_failure (c : Call) (s : State) (hs : Inv c s) (j : Nat) (x : ℚ)
    (e : GoError) (hj : j < c.capacity) (hsj : c.sample j = .ok (x, some e))
    (hr : s.ret = none) : ∃ a t, GetDailyTemp.step c a s = some t := by
  have hp := hs.noPanic
  rcases Nat.lt_or_ge j s.workers.length with hlt | hge
  · have hget : s.workers[j]? = some (s.workers[j]) := List.getElem?_eq_getElem hlt
    cases hw : s.workers[j] with
    | running =>
      rw [hw] at hget
      exact ⟨.finish j, Option.isSome_iff_exists.mp (by simp [GetDailyTemp.step, hp, hget, hsj])⟩
    | sendingErr e2 =>
      rw [hw] at hget
      exact ⟨.recvErr j, Option.isSome_iff_exists.mp (by simp [GetDailyTemp.step, hp, hget, hr])⟩
    | returning =>
      rw [hw] at hget
      have := hs.gone j x e hsj (Or.inl hget)
      simp [hr] at this
    | exited =>
      rw [hw] at hget
      have := hs.gone j x e hsj (Or.inr hget)
      simp [hr] at this
  · have hsp : s.spawner = .looping := by
      by_contra hne
      have := (hs.past hne).1
      omega
    have hm : (s.workers.length : Int) < c.o.measurement := by
      unfold Call.capacity at hj
      omega
    exact ⟨.spawn, Option.isSome_iff_exists.mp (by simp [GetDailyTemp.step, hp, hsp, hm])⟩

theorem failure_core (c : Call) (hN : 1 ≤ c.o.measurement) (j : Nat) (x : ℚ) (e : GoError)
    (hj : j < c.capacity) (hsj : c.sample j = .ok (x, some e)) (s : State)
    (h : Reachable c s) :
    Inv c s ∧ RetFailed c s ∧ (s.ret = none → ∃ a t, GetDailyTemp.step c a s = some t) ∧
      (s.spawner ≠ .looping → s.ret.isSome = true) := by
  obtain ⟨sched, hrun⟩ := h
  have h0 : Inv c (GetDailyTemp.init c) ∧ RetFailed c (GetDailyTemp.init c) :=
    ⟨Inv_init c (by omega), by intro q hq; simp [GetDailyTemp.init] at hq⟩
  have hI := run_preserves c (fun s => Inv c s ∧ RetFailed c s)
    (fun a s t => RetFailed_step c j x e hj hsj a s t) sched _ s h0 hrun
  exact ⟨hI.1, hI.2, progress_of_failure c s hI.1 j x e hj hsj,
    past_returned c s hI.1 j x e hj hsj⟩

theorem run_append (c : Call) (xs ys : List Action) (s : State) :
    GetDailyTemp.run c (xs ++ ys) s
      = (GetDailyTemp.run c xs s).bind (GetDailyTemp.run c ys) := by
  induction xs generalizing s with
  | nil => simp [GetDailyTemp.run]
  | cons a rest ih =>
    simp only [List.cons_append, GetDailyTemp.run]
    cases GetDailyTemp.step c a s with
    | none => simp
    | some u => simp [ih]

theorem Reachable_step (c : Call) (a : Action) (s t : State) (hs : Reachable c s)
    (h : GetDailyTemp.step c a s = some t) : Reachable c t := by
  obtain ⟨sched, hrun⟩ := hs
  refine ⟨sched ++ [a], ?_⟩
  rw [run_append, hrun]
  simp [GetDailyTemp.run, h]

/-- A call that returns `r` in every interleaving has a run in which the collector
returns `r`: from every reachable state the steps that progress grants end, the fuel
being finite, in a state where the collector has returned. -/
theorem Returns_run (c : Call) (r : F64 × Option GoError) (h : GetDailyTemp.Returns c r) :
    ∃ sched s, GetDailyTemp.run c sched (GetDailyTemp.init c) = some s ∧ s.ret = some r := by
  have key : ∀ n s, GetDailyTemp.fuel c s ≤ n → Reachable c s →
      ∃ t, Reachable c t ∧ t.ret = some r := by
    intro n
    induction n with
    | zero =>
      intro s hn hs
      cases hr : s.ret with
      | some q => exact ⟨s, hs, by rw [hr, (h s hs).2.2 q hr]⟩
      | none =>
        obtain ⟨a, t, ht⟩ := (h s hs).1 hr
        have := (h s hs).2.1 a t ht
        omega
    | succ k ih =>
      intro s hn hs
      cases hr : s.ret with
      | some q => exact ⟨s, hs, by rw [hr, (h s hs).2.2 q hr]⟩
      | none =>
        obtain ⟨a, t, ht⟩ := (h s hs).1 hr
        have := (h s hs).2.1 a t ht
        exact ih t (by omega) (Reachable_step c a s t hs ht)
  obtain ⟨t, ⟨sched, hrun⟩, hret⟩ := key _ (GetDailyTemp.init c) (le_refl _) ⟨[], rfl⟩
  exact ⟨sched, t, hrun, hret⟩

/-- C2: for a sample count of at least 1, if one sample fails with error `E` and every
other sample succeeds, then in every interleaving `GetDailyTemp` returns `(0, E)` (it is
never stuck, never runs for ever, and returns nothing else, so never a mean; some run
does reach the return), and `resultCh` is closed only after the collector has received
`E` and returned. -/
theorem C2_single_failure (c : Call) (j : Nat) (x : ℚ) (E : GoError)
    (hN : 1 ≤ c.o.measurement) (hj : (j : Int) < c.o.measurement)
    (hfail : c.sample j = .ok (x, some E))
    (hothers : ∀ i : Nat, (i : Int) < c.o.measurement → i ≠ j →
      ∃ t, c.sample i = .ok (t, none)) :
    GetDailyTemp.Returns c (F64.num 0, some E) ∧
      (∃ sched s, GetDailyTemp.run c sched (GetDailyTemp.init c) = some s ∧
        s.ret = some (F64.num 0, some E)) ∧
      ∀ s, Reachable c s → s.resultClosed = true → s.ret = some (F64.num 0, some E) := by
  have hjc : j < c.capacity := by unfold Call.capacity; omega
  have hval : ∀ s, Reachable c s → ∀ q, s.ret = some q → q = (F64.num 0, some E) := by
    intro s hs q hq
    obtain ⟨i, y, e, hi, hsi, rfl⟩ := (failure_core c hN j x E hjc hfail s hs).2.1 q hq
    rcases eq_or_ne i j with rfl | hne
    · rw [hfail] at hsi
      simp only [Except.ok.injEq, Prod.mk.injEq, Option.some.injEq] at hsi
      rw [hsi.2]
    · obtain ⟨t, ht⟩ := hothers i (by unfold Call.capacity at hi; omega) hne
      rw [ht] at hsi
      simp at hsi
  have hret : GetDailyTemp.Returns c (F64.num 0, some E) := by
    intro s hs
    exact ⟨(failure_core c hN j x E hjc hfail s hs).2.2.1,
      fun a t h => fuel_decreases c a s t h, hval s hs⟩
  refine ⟨hret, Returns_run c _ hret, ?_⟩
  · intro s hs hcl
    have hne : s.spawner ≠ .looping := by
      intro hsp
      simp [State.resultClosed, hsp] at hcl
    have hsome := (failure_core c hN j x E hjc hfail s hs).2.2.2 hne
    obtain ⟨q, hq⟩ := Option.isSome_iff_exists.mp hsome
    rw [hq, hval s hs q hq]

/-- Witness for C2: three samples, the second answers 500. -/
theorem C2_single_failure_witness :
    GetDailyTemp.Returns oneFails
      (F64.num 0, some (.api ⟨500, dateOffset oneFails.o oneFails.date 1, demoLocation,
        some (.New "oops")⟩)) :=
  (C2_single_failure oneFails 1 0 _ (by decide) (by decide) rfl (by
    intro i hi hne
    have hi3 : (i : Int) < 3 := hi
    have : i = 0 ∨ i = 2 := by omega
    rcases this with rfl | rfl
    · exact ⟨20, rfl⟩
    · exact ⟨20, rfl⟩)).1

/-- C9, as amended: for a sample count of at least 1, if the context is cancelled while
sample `j` is in flight and every sample either succeeds or returns `CancelErr`, then
every call in flight at the cancellation returns `(0, CancelErr)` and in every
interleaving `GetDailyTemp` returns `(0, CancelErr)` (never stuck, never running for
ever, some run reaching the return), never a mean; the error it returns is the very
value the sample returned, `GetDailyTemp` having no cancellation case of its own. -/
theorem C9_cancelled_amended (c : Call) (j : Nat) (hN : 1 ≤ c.o.measurement)
    (hj : (j : Int) < c.o.measurement) (hcancel : c.ctx j = .doneOnly)
    (hrest : ∀ i : Nat, (i : Int) < c.o.measurement →
      (∃ t, c.sample i = .ok (t, none)) ∨ c.sample i = .ok (0, some CancelErr)) :
    (∀ i : Nat, c.ctx i = .doneOnly → c.sample i = .ok (0, some CancelErr)) ∧
      GetDailyTemp.Returns c (F64.num 0, some CancelErr) ∧
      (∃ sched s, GetDailyTemp.run c sched (GetDailyTemp.init c) = some s ∧
        s.ret = some (F64.num 0, some CancelErr)) ∧
      ∀ s, Reachable c s → ∀ v e, s.ret = some (v, e) → c.sample j = .ok (0, e) := by
  have hjc : j < c.capacity := by unfold Call.capacity; omega
  have hin : ∀ i : Nat, c.ctx i = .doneOnly → c.sample i = .ok (0, some CancelErr) := by
    intro i hi
    simp [Call.sample, GetTempByTime, hi]
  have hfail := hin j hcancel
  have hval : ∀ s, Reachable c s → ∀ q, s.ret = some q →
      q = (F64.num 0, some CancelErr) := by
    intro s hs q hq
    obtain ⟨i, y, e, hi, hsi, rfl⟩ :=
      (failure_core c hN j 0 CancelErr hjc hfail s hs).2.1 q hq
    rcases hrest i (by unfold Call.capacity at hi; omega) with ⟨t, ht⟩ | ht
    · rw [ht] at hsi
      simp at hsi
    · rw [ht] at hsi
      simp only [Except.ok.injEq, Prod.mk.injEq, Option.some.injEq] at hsi
      rw [hsi.2]
  have hret : GetDailyTemp.Returns c (F64.num 0, some CancelErr) := by
    intro s hs
    exact ⟨(failure_core c hN j 0 CancelErr hjc hfail s hs).2.2.1,
      fun a t h => fuel_decreases c a s t h, hval s hs⟩
  refine ⟨hin, hret, Returns_run c _ hret, ?_⟩
  · intro s hs v e hq
    have := hval s hs _ hq
    simp only [Prod.mk.injEq] at this
    rw [this.2, hfail]

/-- Witness for C9: two samples, the context cancelled while the second is in flight. -/
theorem C9_cancelled_amended_witness :
    GetDailyTemp.Returns cancelled (F64.num 0, some CancelErr) :=
  (C9_cancelled_amended cancelled 1 (by decide) (by decide) rfl (by
    intro i hi
    have hi2 : (i : Int) < 2 := hi
    have : i = 0 ∨ i = 1 := by omega
    rcases this with rfl | rfl
    · exact Or.inl ⟨20, rfl⟩
    · exact Or.inr rfl)).2.1

/-- C9 as stated fails: the cancellation error `GetDailyTemp` returns is not distinct
from the sample-level one. With the context cancelled while sample 1 is in flight, that
sample returns `CancelErr` and the collector returns the same value. -/
theorem C9_counterexample :
    cancelled.ctx 1 = .doneOnly ∧
    cancelled.sample 1 = .ok (0, some CancelErr) ∧
    (GetDailyTemp.run cancelled [.spawn, .spawn, .finish 1, .recvErr 1]
      (GetDailyTemp.init cancelled)).map State.ret
        = some (some (F64.num 0, some CancelErr)) ∧
    ¬ ∀ e1 e2 : GoError,
        (GetDailyTemp.run cancelled [.spawn, .spawn, .finish 1, .recvErr 1]
          (GetDailyTemp.init cancelled)).map State.ret = some (some (F64.num 0, some e1)) →
        cancelled.sample 1 = .ok (0, some e2) → e1 ≠ e2 := by
  have hrun : (GetDailyTemp.run cancelled [.spawn, .spawn, .finish 1, .recvErr 1]
      (GetDailyTemp.init cancelled)).map State.ret
        = some (some (F64.num 0, some CancelErr)) := by
    rfl
  refine ⟨rfl, rfl, hrun, ?_⟩
  intro h
  exact h CancelErr CancelErr hrun rfl rfl

/-- C1 fails in one interleaving: with one sample that succeeds with 5 degrees, the
worker sends and exits, the spawner closes `resultCh`, its timer fires and it closes
`errCh` before the collector has run; the collector may then take the `errCh` case, read
nil from the closed channel and return `(0, nil)` instead of the mean `(5, nil)`. -/
theorem C1_closed_errCh_run :
    oneSucceeds.sample 0 = .ok (5, none) ∧
    (GetDailyTemp.run oneSucceeds
        [.spawn, .finish 0, .done 0, .waitReturn, .closeResult, .closeErr, .recvErrClosed]
        (GetDailyTemp.init oneSucceeds)).map State.ret = some (some (F64.num 0, none)) ∧
    (GetDailyTemp.run oneSucceeds
        [.spawn, .finish 0, .done 0, .waitReturn, .closeResult, .recvResult,
          .recvResultClosed]
        (GetDailyTemp.init oneSucceeds)).map State.ret = some (some (F64.num 5, none)) ∧
    ¬ GetDailyTemp.Returns oneSucceeds (F64.num 5, none) := by
  have h0 : (GetDailyTemp.run oneSucceeds
        [.spawn, .finish 0, .done 0, .waitReturn, .closeResult, .closeErr, .recvErrClosed]
        (GetDailyTemp.init oneSucceeds)).map State.ret = some (some (F64.num 0, none)) := by
    rfl
  refine ⟨rfl, h0, ?_, ?_⟩
  · simp [GetDailyTemp.run, GetDailyTemp.step, GetDailyTemp.init, oneSucceeds, demoCall,
      New, Call.sample, GetTempByTime, GetTempByTime.goroutine, World.fixed,
      GetTempByTime.deliver, Call.capacity, State.resultClosed, F64.div]
  · intro h
    cases hrun : GetDailyTemp.run oneSucceeds
        [.spawn, .finish 0, .done 0, .waitReturn, .closeResult, .closeErr, .recvErrClosed]
        (GetDailyTemp.init oneSucceeds) with
    | none => rw [hrun] at h0; simp at h0
    | some s =>
      rw [hrun] at h0
      simp only [Option.map_some', Option.some.injEq] at h0
      have := (h s ⟨_, hrun⟩).2.2 _ h0
      simp at this

theorem delivered_append (c : Call) (ws : List Worker) (w : Worker) (k : Nat) :
    delivered c (ws ++ [w]) k
      = delivered c ws k + (if w.sent then c.temp (k + ws.length) else 0) := by
  induction ws generalizing k with
  | nil => simp [delivered]
  | cons v vs ih =>
    have e : k + 1 + vs.length = k + (vs.length + 1) := by omega
    have := ih (k + 1)
    rw [e] at this
    show (if v.sent then c.temp k else 0) + delivered c (vs ++ [w]) (k + 1) = _
    rw [this]
    simp only [delivered, List.length_cons]
    ring

theorem delivered_set (c : Call) (ws : List Worker) (i k : Nat) (a b : Worker)
    (h : ws[i]? = some a) :
    delivered c (ws.set i b) k + (if a.sent then c.temp (k + i) else 0)
      = delivered c ws k + (if b.sent then c.temp (k + i) else 0) := by
  induction ws generalizing i k with
  | nil => simp at h
  | cons v vs ih =>
    cases i with
    | zero =>
      simp only [List.getElem?_cons_zero, Option.some.injEq] at h
      subst h
      simp only [List.set_cons_zero, delivered, Nat.add_zero]
      ring
    | succ n =>
      simp only [List.getElem?_cons_succ] at h
      have := ih n (k + 1) h
      simp only [List.set_cons_succ, delivered]
      have e : k + 1 + n = k + (n + 1) := by omega
      rw [e] at this
      linarith

theorem delivered_all_exited (c : Call) (ws : List Worker) (k : Nat)
    (h : ∀ w ∈ ws, w = Worker.exited) :
    delivered c ws k = ((List.range' k ws.length).map c.temp).sum := by
  induction ws generalizing k with
  | nil => simp [delivered]
  | cons v vs ih =>
    have hv : v = Worker.exited := h v (List.mem_cons_self _ _)
    have := ih (k + 1) (fun w hw => h w (List.mem_cons_of_mem _ hw))
    simp [delivered, hv, Worker.sent, this, List.range']

theorem temp_of_ok (c : Call) (i : Nat) (x : ℚ) (h : c.sample i = .ok (x, none)) :
    c.temp i = x := by
  simp [Call.temp, h]

theorem temp_of_err (c : Call) (i : Nat) (x : ℚ) (e : GoError)
    (h : c.sample i = .ok (x, some e)) : c.temp i = 0 := by
  simp [Call.temp, h]

theorem SumInv_step (c : Call) (a : Action) (s t : State) (hs : Inv c s ∧ SumInv c s)
    (h : GetDailyTemp.step c a s = some t) : Inv c t ∧ SumInv c t := by
  refine ⟨Inv_step c a s t hs.1 h, ?_⟩
  obtain ⟨hinv, hsum⟩ := hs
  unfold SumInv at hsum ⊢
  cases a with
  | spawn =>
    obtain ⟨-, -, rfl⟩ := step_spawn c s t h
    simp [delivered_append, Worker.sent, hsum]
  | waitReturn =>
    obtain ⟨-, -, -, rfl⟩ := step_waitReturn c s t h
    exact hsum
  | closeResult =>
    obtain ⟨-, rfl⟩ := step_closeResult c s t h
    exact hsum
  | closeErr =>
    obtain ⟨-, rfl⟩ := step_closeErr c s t h
    exact hsum
  | finish i =>
    obtain ⟨hw, h1 | h1 | h1⟩ := step_finish c i s t h
    · obtain ⟨y, hsm, -, rfl⟩ := h1
      have := delivered_set c s.workers i 0 _ Worker.returning hw
      simp [Worker.sent, temp_of_ok c i y hsm] at this
      simp [this]
      linarith
    · obtain ⟨y, e2, -, rfl⟩ := h1
      have := delivered_set c s.workers i 0 _ (Worker.sendingErr e2) hw
      simp [Worker.sent] at this
      simp [this, hsum]
    · obtain ⟨msg, hsm, -⟩ := h1
      exact absurd hsm (sample_not_panicked c i msg)
  | done i =>
    obtain ⟨hw, h1 | h1⟩ := step_done c i s t h
    · obtain ⟨-, rfl⟩ := h1
      exact hsum
    · obtain ⟨-, rfl⟩ := h1
      have := delivered_set c s.workers i 0 _ Worker.exited hw
      simp [Worker.sent] at this
      simp [this, hsum]
  | recvResult =>
    obtain ⟨-, y, rest, hb, rfl⟩ := step_recvResult c s t h
    rw [hb] at hsum
    simp at hsum ⊢
    linarith
  | recvErr i =>
    obtain ⟨-, e2, hw, rfl⟩ := step_recvErr c i s t h
    obtain ⟨y, hy⟩ := hinv.offered i e2 hw
    have := delivered_set c s.workers i 0 _ Worker.returning hw
    simp [Worker.sent, temp_of_err c i y e2 hy] at this
    simp [this, hsum]
  | recvResultClosed =>
    obtain ⟨-, -, -, rfl⟩ := step_recvResultClosed c s t h
    exact hsum
  | recvErrClosed =>
    obtain ⟨-, -, rfl⟩ := step_recvErrClosed c s t h
    exact hsum

theorem RetInv_step (c : Call) (a : Action) (s t : State)
    (hs : (Inv c s ∧ SumInv c s) ∧ RetInv c s)
    (h : GetDailyTemp.step c a s = some t) : (Inv c t ∧ SumInv c t) ∧ RetInv c t := by
  refine ⟨SumInv_step c a s t hs.1 h, ?_⟩
  obtain ⟨⟨hinv, hsum⟩, hret⟩ := hs
  cases a with
  | spawn =>
    obtain ⟨-, -, rfl⟩ := step_spawn c s t h
    exact hret
  | waitReturn =>
    obtain ⟨hsp, -, -, rfl⟩ := step_waitReturn c s t h
    intro q hq
    rcases hret q hq with h1 | h1 | ⟨h1, -⟩
    · exact Or.inl h1
    · exact Or.inr (Or.inl h1)
    · simp [State.errClosed, hsp] at h1
  | closeResult =>
    obtain ⟨hsp, rfl⟩ := step_closeResult c s t h
    intro q hq
    rcases hret q hq with h1 | h1 | ⟨h1, -⟩
    · exact Or.inl h1
    · exact Or.inr (Or.inl h1)
    · simp [State.errClosed, hsp] at h1
  | closeErr =>
    obtain ⟨hsp, rfl⟩ := step_closeErr c s t h
    intro q hq
    rcases hret q hq with h1 | h1 | ⟨h1, -⟩
    · exact Or.inl h1
    · exact Or.inr (Or.inl h1)
    · simp [State.errClosed, hsp] at h1
  | finish i =>
    obtain ⟨-, h1 | h1 | h1⟩ := step_finish c i s t h
    · obtain ⟨y, -, -, rfl⟩ := h1
      exact hret
    · obtain ⟨y, e2, -, rfl⟩ := h1
      exact hret
    · obtain ⟨msg, hsm, -⟩ := h1
      exact absurd hsm (sample_not_panicked c i msg)
  | done i =>
    obtain ⟨-, h1 | h1⟩ := step_done c i s t h
    · obtain ⟨-, rfl⟩ := h1
      exact hret
    · obtain ⟨-, rfl⟩ := h1
      exact hret
  | recvResult =>
    obtain ⟨-, y, rest, -, rfl⟩ := step_recvResult c s t h
    exact hret
  | recvErr i =>
    obtain ⟨-, e2, hw, rfl⟩ := step_recvErr c i s t h
    intro q hq
    simp only [Option.some.injEq] at hq
    obtain ⟨y, hy⟩ := hinv.offered i e2 hw
    have := lt_of_get _ _ _ hw
    exact Or.inl ⟨i, y, e2, by have := hinv.len_le; omega, hy, hq.symm⟩
  | recvResultClosed =>
    obtain ⟨hr, hcl, hb, rfl⟩ := step_recvResultClosed c s t h
    have hne : s.spawner ≠ .looping := by
      intro hsp
      simp [State.resultClosed, hsp] at hcl
    obtain ⟨hlen, hall⟩ := hinv.past hne
    have htot : s.sum = c.total := by
      have h1 := delivered_all_exited c s.workers 0 hall
      unfold SumInv at hsum
      rw [hb, h1, hlen] at hsum
      simp only [List.sum_nil, add_zero] at hsum
      rw [hsum, Call.total, List.range_eq_range']
    intro q hq
    simp only [Option.some.injEq] at hq
    exact Or.inr (Or.inl (by rw [← hq, htot]))
  | recvErrClosed =>
    obtain ⟨hr, hcl, rfl⟩ := step_recvErrClosed c s t h
    intro q hq
    simp only [Option.some.injEq] at hq
    exact Or.inr (Or.inr ⟨hcl, hq.symm⟩)

theorem RetInv_reachable (c : Call) (hN : 0 ≤ c.o.measurement) (s : State)
    (h : Reachable c s) : (Inv c s ∧ SumInv c s) ∧ RetInv c s := by
  obtain ⟨sched, hrun⟩ := h
  have h0 : (Inv c (GetDailyTemp.init c) ∧ SumInv c (GetDailyTemp.init c)) ∧
      RetInv c (GetDailyTemp.init c) :=
    ⟨⟨Inv_init c hN, by simp [SumInv, GetDailyTemp.init, delivered]⟩,
      by intro q hq; simp [GetDailyTemp.init] at hq⟩
  exact run_preserves c (fun s => (Inv c s ∧ SumInv c s) ∧ RetInv c s)
    (fun a s t => RetInv_step c a s t) sched _ s h0 hrun

theorem exited_or_alive (ws : List Worker) :
    (∀ w ∈ ws, w = Worker.exited) ∨
      ∃ (i : Nat) (w : Worker), ws[i]? = some w ∧ w ≠ Worker.exited := by
  by_cases h : ∀ w ∈ ws, w = Worker.exited
  · exact Or.inl h
  · right
    push_neg at h
    obtain ⟨w, hw, hne⟩ := h
    obtain ⟨i, hi⟩ := List.mem_iff_getElem?.mp hw
    exact ⟨i, w, hi, hne⟩

/-- Before the collector has returned some step is enabled: no call deadlocks. -/
theorem progress (c : Call) (s : State) (hs : Inv c s) (hN : 1 ≤ c.o.measurement)
    (hr : s.ret = none) : ∃ a t, GetDailyTemp.step c a s = some t := by
  have hp := hs.noPanic
  cases hb : s.resultCh with
  | cons y rest =>
    exact ⟨.recvResult, Option.isSome_iff_exists.mp (by simp [GetDailyTemp.step, hp, hr, hb])⟩
  | nil =>
    cases hsp : s.spawner with
    | closing =>
      exact ⟨.closeResult, Option.isSome_iff_exists.mp (by simp [GetDailyTemp.step, hp, hsp])⟩
    | sleeping =>
      exact ⟨.recvResultClosed, Option.isSome_iff_exists.mp
        (by simp [GetDailyTemp.step, hp, hr, hsp, hb, State.resultClosed])⟩
    | exited =>
      exact ⟨.recvResultClosed, Option.isSome_iff_exists.mp
        (by simp [GetDailyTemp.step, hp, hr, hsp, hb, State.resultClosed])⟩
    | looping =>
      by_cases hm : (s.workers.length : Int) < c.o.measurement
      · exact ⟨.spawn, Option.isSome_iff_exists.mp (by simp [GetDailyTemp.step, hp, hsp, hm])⟩
      · rcases exited_or_alive s.workers with hall | ⟨i, w, hw, hne⟩
        · have hz : s.wg = 0 := by
            rw [hs.wg_eq, List.countP_eq_zero]
            intro w hw
            simp [hall w hw, Worker.alive]
          exact ⟨.waitReturn, Option.isSome_iff_exists.mp
            (by simp [GetDailyTemp.step, hp, hsp, hm, hz])⟩
        · cases w with
          | running =>
            have hcap : 0 < c.capacity := by unfold Call.capacity; omega
            refine ⟨.finish i, Option.isSome_iff_exists.mp ?_⟩
            rcases hsm : c.sample i with msg | ⟨x, _ | e⟩ <;>
              simp [GetDailyTemp.step, hp, hw, hsm, hb, hcap]
          | sendingErr e =>
            exact ⟨.recvErr i, Option.isSome_iff_exists.mp
              (by simp [GetDailyTemp.step, hp, hw, hr])⟩
          | returning =>
            refine ⟨.done i, Option.isSome_iff_exists.mp ?_⟩
            by_cases hz : s.wg = 0 <;> simp [GetDailyTemp.step, hp, hw, hz]
          | exited => exact absurd rfl hne

/-- When every sample succeeds the collector is never stuck, no run goes on for ever,
and what it returns is the mean of the samples, whatever the order in which they
complete, unless it reads nil from `errCh` after the spawner has closed it. -/
theorem mean_unless_errCh_closed (c : Call) (hN : 1 ≤ c.o.measurement)
    (hall : ∀ i : Nat, (i : Int) < c.o.measurement → ∃ t, c.sample i = .ok (t, none))
    (s : State) (h : Reachable c s) :
    (s.ret = none → ∃ a t, GetDailyTemp.step c a s = some t) ∧
    (∀ a t, GetDailyTemp.step c a s = some t →
      GetDailyTemp.fuel c t < GetDailyTemp.fuel c s) ∧
    (∀ q, s.ret = some q →
      q = (F64.num (((List.range c.capacity).map c.temp).sum / (c.o.measurement : ℚ)), none) ∨
      (s.errClosed = true ∧ q = (F64.num 0, none))) := by
  obtain ⟨⟨hinv, -⟩, hret⟩ := RetInv_reachable c (by omega) s h
  refine ⟨progress c s hinv hN, fun a t => fuel_decreases c a s t, ?_⟩
  intro q hq
  rcases hret q hq with ⟨i, y, e, hi, hsi, -⟩ | h1 | h1
  · obtain ⟨t, ht⟩ := hall i (by unfold Call.capacity at hi; omega)
    rw [ht] at hsi
    simp at hsi
  · left
    have hne : (c.o.measurement : ℚ) ≠ 0 := by
      have : (0 : ℚ) < (c.o.measurement : ℚ) := by exact_mod_cast (by omega : 0 < c.o.measurement)
      exact ne_of_gt this
    rw [h1, F64.div, if_neg hne, Call.total]
  · exact Or.inr h1

/-- C8, as amended: `New` validates nothing and rejects no configuration; the
`OpenWeatherAPI` it returns has `measurement` equal to `CountMeasurement` (and the token
of the configuration), so the sample count is at least 1 exactly when `CountMeasurement`
is, and in that case the division of `GetDailyTemp` is by a non-zero sample count. -/
theorem C8_new_amended (cfg : Config) :
    (New cfg).measurement = cfg.CountMeasurement ∧
    (New cfg).token = cfg.Token ∧
    (1 ≤ (New cfg).measurement ↔ 1 ≤ cfg.CountMeasurement) ∧
    (1 ≤ cfg.CountMeasurement → ∀ (c : Call) (s t : State), c.o = New cfg →
      GetDailyTemp.step c .recvResultClosed s = some t →
      t.ret = some (F64.num (s.sum / (cfg.CountMeasurement : ℚ)), none)) := by
  refine ⟨rfl, rfl, Iff.rfl, ?_⟩
  intro h1 c s t ho hstep
  obtain ⟨-, -, -, rfl⟩ := step_recvResultClosed c s t hstep
  have hne : (cfg.CountMeasurement : ℚ) ≠ 0 := by
    have : (0 : ℚ) < (cfg.CountMeasurement : ℚ) := by
      exact_mod_cast (by omega : 0 < cfg.CountMeasurement)
    exact ne_of_gt this
  simp [ho, New, F64.div, hne]

/-- Witness for C8: a configuration with four samples. -/
theorem C8_new_amended_witness :
    (New ⟨"token", 4⟩).measurement = 4 ∧ (1 ≤ (New ⟨"token", 4⟩).measurement ↔ 1 ≤ (4 : Int)) :=
  ⟨(C8_new_amended ⟨"token", 4⟩).1, (C8_new_amended ⟨"token", 4⟩).2.2.1⟩

/-- C8 as stated fails: `New` accepts a configuration with `CountMeasurement = 0` and
returns a value with `measurement = 0`, on which `GetDailyTemp` divides by a zero sample
count and returns the quotient with a nil error. -/
theorem C8_counterexample :
    (New ⟨"token", 0⟩).measurement = 0 ∧
    ¬ (∀ cfg : Config, 1 ≤ (New cfg).measurement) ∧
    (GetDailyTemp.run (demoCall 0 (fun _ => World.fixed 200 "body" none) (fun _ => .outcomeOnly))
        [.waitReturn, .closeResult, .recvResultClosed]
        (GetDailyTemp.init
          (demoCall 0 (fun _ => World.fixed 200 "body" none) (fun _ => .outcomeOnly)))).map
      State.ret = some (some (F64.notFinite, none)) := by
  refine ⟨rfl, ?_, ?_⟩
  · intro h
    exact absurd (h ⟨"token", 0⟩) (by decide)
  · simp [GetDailyTemp.run, GetDailyTemp.step, GetDailyTemp.init, demoCall, New,
      State.resultClosed, F64.div]

end Weather
